import Mathlib

/-!
Verification of the AlitaOS realtime proxy (app/realtime_proxy.py) and the
client-side tool dispatch guard (app/alita_streamlit.py).

The Python/JavaScript sources are shallowly embedded: each handler becomes a
pure Lean function parameterised by the configuration (environment variables)
and by oracles describing the responses of the external HTTP services; each
handler additionally returns the ordered list of outbound HTTP calls it made,
so that claims about "zero outbound calls" or "exactly one retry" are
statements about that trace.
-/

set_option maxRecDepth 10000

namespace AlitaOS

/-- Truthiness of a Python `str | None` value (`if not OPENAI_API_KEY: ...`):
`None` and the empty string are falsy. -/
def pyTruthyOptStr : Option String → Bool
  | none => false
  | some s => !(s == "")

/-- An upstream HTTP response, as observed by `requests`: status code, raw
text body, and the parsed JSON body (`none` models a body on which
`resp.json()` raises). -/
structure HttpResp where
  status : Nat
  text : String

/-- Result of an outbound `requests` call: `.error e` models the call raising
an exception whose `str(e)` is `e`. -/
abbrev ExResp := Except String HttpResp

/-! ## SDP relay (realtime_proxy.py, lines 62-84) -/

/-- `OPENAI_REALTIME_URL = f"https://api.openai.com/v1/realtime?model={OPENAI_REALTIME_MODEL}"`
(line 40). -/
def OPENAI_REALTIME_URL (model : String) : String :=
  "https://api.openai.com/v1/realtime?model=" ++ model

/-- The outbound request issued by the `/sdp` handler (lines 70-79): URL,
request body, and the three headers it sets. -/
structure SdpUpstreamCall where
  url : String
  body : String
  authorization : String
  contentType : String
  openaiBeta : String
deriving DecidableEq, Repr

/-- The call `requests.post(OPENAI_REALTIME_URL, data=offer_sdp, headers={...})`
built by the `/sdp` handler for key `k`, model `model` and offer body
`offer`. -/
def sdpUpstreamCall (k model offer : String) : SdpUpstreamCall :=
  { url := OPENAI_REALTIME_URL model
    body := offer
    authorization := "Bearer " ++ k
    contentType := "application/sdp"
    openaiBeta := "realtime=v1" }

/-- A `fastapi.Response`: status code, body text, media type. -/
structure SdpResult where
  status : Nat
  body : String
  mediaType : String
deriving DecidableEq, Repr

/-- The `/sdp` handler (lines 62-84).  `upstream` is the oracle for the
one outbound `requests.post`; the second component of the result is the list
of outbound calls performed. -/
def sdp (apiKey : Option String) (model offer : String)
    (upstream : SdpUpstreamCall → ExResp) : SdpResult × List SdpUpstreamCall :=
  if !(pyTruthyOptStr apiKey) then
    ({ status := 500, body := "OPENAI_API_KEY not configured", mediaType := "text/plain" }, [])
  else
    let call := sdpUpstreamCall (apiKey.getD "") model offer
    match upstream call with
    | .ok resp =>
        ({ status := resp.status, body := resp.text, mediaType := "application/sdp" }, [call])
    | .error e =>
        ({ status := 500, body := "Proxy error: " ++ e, mediaType := "text/plain" }, [call])

/-! ## Claims C1 and C2 -/

/-- C1: for every SDP offer body received on POST /sdp when a credential is
configured, the proxy forwards the exact offer body to the upstream realtime
endpoint (with the credential injected as an Authorization header) and returns
the exact upstream response body and status code to the caller, unmodified. -/
theorem sdp_forwards_exactly (k model offer : String)
    (upstream : SdpUpstreamCall → ExResp) (r : HttpResp)
    (hk : k ≠ "")
    (hup : upstream (sdpUpstreamCall k model offer) = .ok r) :
    sdp (some k) model offer upstream
        = ({ status := r.status, body := r.text, mediaType := "application/sdp" },
           [sdpUpstreamCall k model offer])
      ∧ (sdpUpstreamCall k model offer).body = offer
      ∧ (sdpUpstreamCall k model offer).authorization = "Bearer " ++ k := by
  refine ⟨?_, rfl, rfl⟩
  have hk' : (k == "") = false := by
    simpa using hk
  simp [sdp, pyTruthyOptStr, hk', hup]

/-- Witness for C1 at a concrete offer, key and upstream answer. -/
theorem sdp_forwards_exactly_witness :
    sdp (some ("sk-test")) ("gpt-4o-realtime-preview-2024-12-17") ("v=0 offer")
        (fun _ => .ok { status := 201, text := "v=0 answer" })
        = ({ status := 201, body := "v=0 answer", mediaType := "application/sdp" },
           [sdpUpstreamCall ("sk-test") ("gpt-4o-realtime-preview-2024-12-17") ("v=0 offer")])
      ∧ (sdpUpstreamCall ("sk-test") ("gpt-4o-realtime-preview-2024-12-17") ("v=0 offer")).body
          = ("v=0 offer")
      ∧ (sdpUpstreamCall ("sk-test") ("gpt-4o-realtime-preview-2024-12-17") ("v=0 offer")).authorization
          = ("Bearer " ++ "sk-test") :=
  sdp_forwards_exactly ("sk-test") ("gpt-4o-realtime-preview-2024-12-17") ("v=0 offer")
    (fun _ => .ok { status := 201, text := "v=0 answer" })
    { status := 201, text := "v=0 answer" } (by decide) rfl

/-- C2: for every request body, POST /sdp with no credential configured
returns status 500 and performs zero outbound HTTP calls. -/
theorem sdp_no_credential (apiKey : Option String) (model offer : String)
    (upstream : SdpUpstreamCall → ExResp)
    (hk : pyTruthyOptStr apiKey = false) :
    sdp apiKey model offer upstream
      = ({ status := 500, body := "OPENAI_API_KEY not configured", mediaType := "text/plain" }, []) := by
  simp [sdp, hk]

/-- Witness for C2: unset credential, concrete offer. -/
theorem sdp_no_credential_witness :
    sdp none ("gpt-4o-realtime-preview-2024-12-17") ("v=0 offer")
        (fun _ => .ok { status := 200, text := "v=0 answer" })
      = ({ status := 500, body := "OPENAI_API_KEY not configured", mediaType := "text/plain" }, []) :=
  sdp_no_credential none ("gpt-4o-realtime-preview-2024-12-17") ("v=0 offer")
    (fun _ => .ok { status := 200, text := "v=0 answer" }) (by decide)

/-! ## JSON values

JSON values as exchanged between the browser, the proxy and the upstream
services.  JavaScript / Python numbers are modelled as integers (every number
appearing in the sources and claims is integral). -/

inductive Json where
  | null
  | bool (b : Bool)
  | num (n : Int)
  | str (s : String)
  | arr (elems : List Json)
  | obj (fields : List (String × Json))

instance : Inhabited Json := ⟨Json.null⟩

/-- Lower-case hex digit. -/
def hexDigitChar (n : Nat) : Char :=
  if n < 10 then Char.ofNat (48 + n) else Char.ofNat (87 + n)

/-- Four lower-case hex digits, as produced by `JSON.stringify` for control
characters. -/
def hex4 (n : Nat) : String :=
  String.mk [hexDigitChar ((n / 4096) % 16), hexDigitChar ((n / 256) % 16),
             hexDigitChar ((n / 16) % 16), hexDigitChar (n % 16)]

/-- Escaping of one character inside a JSON string literal, following
`JSON.stringify`. -/
def escChar (c : Char) : String :=
  if c == '"' then "\\\""
  else if c == '\\' then "\\\\"
  else if c == '\n' then "\\n"
  else if c == '\r' then "\\r"
  else if c == '\t' then "\\t"
  else if c == '\x08' then "\\b"
  else if c == '\x0c' then "\\f"
  else if c.toNat < 32 then "\\u" ++ hex4 c.toNat
  else String.mk [c]

/-- `JSON.stringify` of a string value. -/
def jsonQuote (s : String) : String :=
  "\"" ++ String.join (s.data.map escChar) ++ "\""

/-- JavaScript property read `obj[k]` on an object literal (objects cannot
carry duplicate keys, so first-match lookup is exact). -/
def jsGet (fields : List (String × Json)) (k : String) : Json :=
  ((fields.find? (fun p => p.1 == k)).map (fun p => p.2)).getD Json.null

/-- `Object.keys(obj).sort()` (alita_streamlit.py line 810): default
`Array.sort` compares strings by code units, i.e. lexicographically. -/
def sortKeys (ks : List String) : List String :=
  List.insertionSort (fun a b => a ≤ b) ks

/-- `stableStringify` (alita_streamlit.py lines 807-812), with an explicit
fuel argument (the recursion of the source is on the nested JSON value; fuel
makes it structural).  For objects the keys are sorted and each value is
looked up and serialized, exactly as in
`keys.map(k => JSON.stringify(k) + ':' + stableStringify(obj[k]))`. -/
def sstrF : Nat → Json → String
  | 0, _ => ""
  | _ + 1, .null => "null"
  | _ + 1, .bool b => if b then ("true") else ("false")
  | _ + 1, .num n => toString n
  | _ + 1, .str s => jsonQuote s
  | n + 1, .arr xs => "[" ++ String.intercalate "," (xs.map (sstrF n)) ++ "]"
  | n + 1, .obj fs =>
      "\x7b" ++ String.intercalate ","
        ((sortKeys (fs.map Prod.fst)).map
          (fun k => jsonQuote k ++ ":" ++ sstrF n (jsGet fs k))) ++ "\x7d"

/-- Size of a JSON value, used as fuel for the serializer. -/
def jsize : Json → Nat
  | .null => 1
  | .bool _ => 1
  | .num _ => 1
  | .str _ => 1
  | .arr xs => 1 + (xs.attach.map (fun x => jsize x.1)).sum
  | .obj fs => 1 + (fs.attach.map (fun p => jsize p.1.2)).sum
decreasing_by
  · have h1 := List.sizeOf_lt_of_mem x.2
    simp only [Json.arr.sizeOf_spec]
    omega
  · have h1 := List.sizeOf_lt_of_mem p.2
    have h2 : sizeOf p.1.2 < sizeOf p.1 := by
      obtain ⟨q, hq⟩ := p
      obtain ⟨a, b⟩ := q
      simp only [Prod.mk.sizeOf_spec]
      omega
    simp only [Json.obj.sizeOf_spec]
    omega

theorem jsize_arr (xs : List Json) : jsize (.arr xs) = 1 + (xs.map jsize).sum := by
  simp [jsize, List.attach_map_val]

theorem jsize_obj (fs : List (String × Json)) :
    jsize (.obj fs) = 1 + (fs.map (fun p => jsize p.2)).sum := by
  simp [jsize, List.attach_map_val fs (fun p => jsize p.2)]

theorem jsize_pos (j : Json) : 1 ≤ jsize j := by
  cases j <;> simp [jsize]

/-- `stableStringify(obj)`: the fuel `jsize obj` dominates the recursion
depth, so this computes the full serialization. -/
def stableStringify (j : Json) : String := sstrF (jsize j) j

/-- A normalized tool call `{name, args}`; `args` is `none` when the
JavaScript value is `undefined`. -/
structure ToolCall where
  name : String
  args : Option Json

/-- JavaScript falsiness of a JSON value (`tool.args || {}`): `null`,
`false`, `0` and `""` are falsy; every object and array is truthy. -/
def jsFalsy : Json → Bool
  | .null => true
  | .bool b => !b
  | .num n => n == 0
  | .str s => s == ""
  | .arr _ => false
  | .obj _ => false

/-- `const key = tool.name + '|' + stableStringify(tool.args || {});`
(line 813). -/
def dedupKey (tool : ToolCall) : String :=
  tool.name ++ "|" ++
    stableStringify
      (if jsFalsy (tool.args.getD Json.null) then Json.obj [] else tool.args.getD Json.null)

/-! ## Claim C5: key-order invariance of the canonical dedup key -/

/-- Two JSON values that are equal as (recursively nested) maps: equal
scalars, pointwise-related arrays, and objects with duplicate-free key sets
carrying the same keys and related values at each key, regardless of field
order. -/
inductive EquivMap : Json → Json → Prop
  | null : EquivMap .null .null
  | bool (b : Bool) : EquivMap (.bool b) (.bool b)
  | num (n : Int) : EquivMap (.num n) (.num n)
  | str (s : String) : EquivMap (.str s) (.str s)
  | arr {xs ys : List Json} (hlen : xs.length = ys.length)
      (helem : ∀ p ∈ xs.zip ys, EquivMap p.1 p.2) : EquivMap (.arr xs) (.arr ys)
  | obj {fa fb : List (String × Json)}
      (hna : (fa.map Prod.fst).Nodup) (hnb : (fb.map Prod.fst).Nodup)
      (hkeys : ∀ k, k ∈ fa.map Prod.fst ↔ k ∈ fb.map Prod.fst)
      (hvals : ∀ k v w, (k, v) ∈ fa → (k, w) ∈ fb → EquivMap v w) :
      EquivMap (.obj fa) (.obj fb)

/-- In an association list with duplicate-free keys, `find?` on a key held by
a member returns exactly that member. -/
theorem find?_key_of_mem_nodup {α : Type} {fs : List (String × α)} {k : String} {v : α}
    (hn : (fs.map Prod.fst).Nodup) (h : (k, v) ∈ fs) :
    fs.find? (fun p => p.1 == k) = some (k, v) := by
  induction fs with
  | nil => simp at h
  | cons p rest ih =>
    rw [List.map_cons, List.nodup_cons] at hn
    rcases List.mem_cons.mp h with h1 | h1
    · rw [← h1]
      exact List.find?_cons_of_pos _ (by simp)
    · have hne : ¬ p.1 = k := by
        intro he
        exact hn.1 (he ▸ List.mem_map_of_mem Prod.fst h1)
      rw [List.find?_cons_of_neg _ (by simpa using hne)]
      exact ih hn.2 h1

theorem jsGet_of_mem_nodup {fs : List (String × Json)} {k : String} {v : Json}
    (hn : (fs.map Prod.fst).Nodup) (h : (k, v) ∈ fs) : jsGet fs k = v := by
  simp [jsGet, find?_key_of_mem_nodup hn h]

/-- A key is in the projected key list iff some entry carries it. -/
theorem mem_keys_iff_exists {α : Type} {fs : List (String × α)} {k : String} :
    k ∈ fs.map Prod.fst ↔ ∃ v, (k, v) ∈ fs := by
  constructor
  · intro hk
    rcases List.mem_map.mp hk with ⟨p, hp, hpk⟩
    refine ⟨p.2, ?_⟩
    rw [← hpk]
    simpa using hp
  · intro h
    rcases h with ⟨v, hv⟩
    exact List.mem_map_of_mem Prod.fst hv

/-- Sorting is invariant under permutation of the input (for duplicate-free
string lists the sorted order is unique). -/
theorem sortKeys_eq_of_perm {la lb : List String} (h : la.Perm lb) :
    sortKeys la = sortKeys lb := by
  have h1 : (sortKeys la).Perm (sortKeys lb) :=
    ((List.perm_insertionSort _ la).trans h).trans (List.perm_insertionSort _ lb).symm
  exact List.eq_of_perm_of_sorted h1 (List.sorted_insertionSort _ la) (List.sorted_insertionSort _ lb)

/-- Serialization with enough fuel is invariant across `EquivMap`:
the canonical (key-sorted) serialization of equal-as-maps values agrees. -/
theorem sstrF_congr (n : Nat) : ∀ {a b : Json} (m : Nat), EquivMap a b →
    jsize a ≤ n → jsize b ≤ m → sstrF n a = sstrF m b := by
  induction n using Nat.strong_induction_on with
  | _ n IH =>
    intro a b m heq hna hmb
    obtain ⟨n', rfl⟩ : ∃ n', n = n' + 1 := by
      cases n with
      | zero => have := jsize_pos a; omega
      | succ k => exact ⟨k, rfl⟩
    obtain ⟨m', rfl⟩ : ∃ m', m = m' + 1 := by
      cases m with
      | zero => have := jsize_pos b; omega
      | succ k => exact ⟨k, rfl⟩
    cases heq with
    | null => rfl
    | bool b0 => rfl
    | num n0 => rfl
    | str s0 => rfl
    | arr hlen helem =>
      rename_i xs ys
      have hxs : ∀ x ∈ xs, jsize x ≤ n' := by
        intro x hx
        have h1 : jsize x ≤ (xs.map jsize).sum :=
          List.le_sum_of_mem (List.mem_map_of_mem jsize hx)
        have h2 := jsize_arr xs
        omega
      have hys : ∀ y ∈ ys, jsize y ≤ m' := by
        intro y hy
        have h1 : jsize y ≤ (ys.map jsize).sum :=
          List.le_sum_of_mem (List.mem_map_of_mem jsize hy)
        have h2 := jsize_arr ys
        omega
      have hmap : ∀ (l1 l2 : List Json), l1.length = l2.length →
          (∀ p ∈ l1.zip l2, EquivMap p.1 p.2) → (∀ x ∈ l1, jsize x ≤ n') →
          (∀ y ∈ l2, jsize y ≤ m') → l1.map (sstrF n') = l2.map (sstrF m') := by
        intro l1
        induction l1 with
        | nil =>
          intro l2 hl _ _ _
          cases l2 with
          | nil => rfl
          | cons y l2' => simp at hl
        | cons x l1' ih =>
          intro l2 hl hz hb1 hb2
          cases l2 with
          | nil => simp at hl
          | cons y l2' =>
            simp only [List.map_cons, List.cons.injEq]
            constructor
            · exact IH n' (Nat.lt_succ_self n') m' (hz (x, y) (by simp))
                (hb1 x (by simp)) (hb2 y (by simp))
            · exact ih l2' (by simpa using hl) (fun p hp => hz p (by simp [hp]))
                (fun u hu => hb1 u (by simp [hu])) (fun u hu => hb2 u (by simp [hu]))
      simp only [sstrF]
      rw [hmap xs ys hlen helem hxs hys]
    | obj hna' hnb' hkeys0 hvals =>
      rename_i fa fb
      have hkeys : sortKeys (fa.map Prod.fst) = sortKeys (fb.map Prod.fst) :=
        sortKeys_eq_of_perm ((List.perm_ext_iff_of_nodup hna' hnb').mpr hkeys0)
      have hfields : ∀ k ∈ sortKeys (fa.map Prod.fst),
          jsonQuote k ++ ":" ++ sstrF n' (jsGet fa k)
            = jsonQuote k ++ ":" ++ sstrF m' (jsGet fb k) := by
        intro k hk
        have hk1 : k ∈ fa.map Prod.fst := (List.perm_insertionSort _ _).mem_iff.mp hk
        obtain ⟨v, hv⟩ := mem_keys_iff_exists.mp hk1
        obtain ⟨w, hw⟩ := mem_keys_iff_exists.mp ((hkeys0 k).mp hk1)
        have hvw := hvals k v w hv hw
        have hva : jsize v ≤ n' := by
          have h1 : jsize v ≤ (fa.map (fun p => jsize p.2)).sum :=
            List.le_sum_of_mem (List.mem_map_of_mem (fun p => jsize p.2) hv)
          have h2 := jsize_obj fa
          omega
        have hwb : jsize w ≤ m' := by
          have h1 : jsize w ≤ (fb.map (fun p => jsize p.2)).sum :=
            List.le_sum_of_mem (List.mem_map_of_mem (fun p => jsize p.2) hw)
          have h2 := jsize_obj fb
          omega
        rw [jsGet_of_mem_nodup hna' hv, jsGet_of_mem_nodup hnb' hw,
          IH n' (Nat.lt_succ_self n') m' hvw hva hwb]
      simp only [sstrF]
      rw [← hkeys, List.map_congr_left hfields]

/-- `EquivMap` preserves JavaScript falsiness (equal-as-maps scalars are
equal; containers are always truthy). -/
theorem equivMap_jsFalsy {a b : Json} (h : EquivMap a b) : jsFalsy a = jsFalsy b := by
  cases h <;> rfl

/-- C5: the canonical dedup key is invariant under the ordering of argument
keys: for every tool name and every two args objects equal as (recursively
nested) maps, `stableStringify` produces the same string, and hence the same
canonical key. -/
theorem dedup_key_order_independent (name : String) (a b : Json) (h : EquivMap a b) :
    stableStringify a = stableStringify b
    ∧ dedupKey { name := name, args := some a } = dedupKey { name := name, args := some b } := by
  have hs : stableStringify a = stableStringify b :=
    sstrF_congr (jsize a) (jsize b) h (le_refl _) (le_refl _)
  refine ⟨hs, ?_⟩
  have hf := equivMap_jsFalsy h
  simp only [dedupKey, Option.getD]
  rw [hf]
  cases hjb : jsFalsy b with
  | false => simp [hjb, hs]
  | true => simp [hjb]

/-- Witness for C5: `{query:"a", max_results:6}` and `{max_results:6, query:"a"}`
produce the same canonical key. -/
theorem dedup_key_order_independent_witness :
    stableStringify (.obj [("query", .str "a"), ("max_results", .num 6)])
      = stableStringify (.obj [("max_results", .num 6), ("query", .str "a")])
    ∧ dedupKey { name := "search.web",
                 args := some (.obj [("query", .str "a"), ("max_results", .num 6)]) }
      = dedupKey { name := "search.web",
                   args := some (.obj [("max_results", .num 6), ("query", .str "a")]) } :=
  dedup_key_order_independent "search.web" _ _
    (EquivMap.obj (by decide) (by decide)
      (by
        intro k
        simp only [List.map_cons, List.map_nil, List.mem_cons, List.not_mem_nil, or_false]
        tauto)
      (by
        intro k v w hv hw
        rcases List.mem_cons.mp hv with h1 | h1
        · injection h1 with hk1 hv1
          subst hk1; subst hv1
          rcases List.mem_cons.mp hw with h2 | h2
          · injection h2 with hk2 hw2
            exact absurd hk2 (by decide)
          · rcases List.mem_cons.mp h2 with h3 | h3
            · injection h3 with hk3 hw3
              subst hw3
              exact EquivMap.str "a"
            · simp at h3
        · rcases List.mem_cons.mp h1 with h1b | h1b
          · injection h1b with hk1 hv1
            subst hk1; subst hv1
            rcases List.mem_cons.mp hw with h2 | h2
            · injection h2 with hk2 hw2
              subst hw2
              exact EquivMap.num 6
            · rcases List.mem_cons.mp h2 with h3 | h3
              · injection h3 with hk3 hw3
                exact absurd hk3 (by decide)
              · simp at h3
          · simp at h1b))

/-! ## Client-side dedup / in-flight guard (alita_streamlit.py lines 804-851) -/

/-- The guard's mutable state: the `recentTools` map (key → timestamp of last
invocation) and the `__inFlightTools` set. -/
structure GuardState where
  recentTools : List (String × Int)
  inFlight : List String

def emptyGuard : GuardState := { recentTools := [], inFlight := [] }

/-- `Map.get`. -/
def mapGet (m : List (String × Int)) (k : String) : Option Int :=
  (m.find? (fun p => p.1 == k)).map (fun p => p.2)

/-- `Map.set`: replace in place, or append a new entry. -/
def mapSet : List (String × Int) → String → Int → List (String × Int)
  | [], k, v => [(k, v)]
  | p :: rest, k, v => if p.1 == k then (k, v) :: rest else p :: mapSet rest k v

/-- The observable outcome of one `runAndRender` invocation: its return
value, the `/tool` HTTP dispatches it issued, and the guard state after the
synchronous part of the call. -/
structure RunOutcome where
  handled : Bool
  dispatched : List (String × Option Json)
  state : GuardState

/-- Lines 817-850 of `runAndRender`, after the dedup-window check: the
in-flight check, state updates, and the `runTool` dispatch. -/
def runDispatch (tool : ToolCall) (key : String) (now : Int) (st : GuardState) : RunOutcome :=
  if st.inFlight.contains key then { handled := true, dispatched := [], state := st }
  else
    { handled := true
      dispatched := [(tool.name, tool.args)]
      state := { recentTools := mapSet st.recentTools key now
                 inFlight := key :: st.inFlight } }

/-- `runAndRender(tool)` (lines 804-851) at time `now = Date.now()`:
the 12-second dedup window check (line 816), then dispatch. -/
def runAndRender (tool : ToolCall) (now : Int) (st : GuardState) : RunOutcome :=
  let key := dedupKey tool
  match mapGet st.recentTools key with
  | some t0 =>
      if now - t0 < 12000 then { handled := true, dispatched := [], state := st }
      else runDispatch tool key now st
  | none => runDispatch tool key now st

/-- The `.finally(...)` of the dispatched promise (line 849): the key is
removed from the in-flight set when the HTTP call completes. -/
def finishTool (tool : ToolCall) (st : GuardState) : GuardState :=
  { st with inFlight := st.inFlight.erase (dedupKey tool) }

/-! ## Claim C4 -/

/-- C4: invoking the client-side guard (`runAndRender`) twice with an
identical `{name, args}` tool call within 12 seconds results in exactly one
underlying HTTP call to `/tool`; the second invocation is suppressed and
treated as handled (returns `true`) without dispatching.  `fin` chooses
whether the first call's `.finally` handler ran before the second call. -/
theorem dedup_within_window (tool : ToolCall) (t1 t2 : Int) (fin : Bool)
    (_h1 : 0 ≤ t2 - t1) (h2 : t2 - t1 < 12000) :
    (runAndRender tool t1 emptyGuard).dispatched.length = 1
    ∧ (runAndRender tool t2 (if fin then finishTool tool (runAndRender tool t1 emptyGuard).state
          else (runAndRender tool t1 emptyGuard).state)).handled = true
    ∧ (runAndRender tool t2 (if fin then finishTool tool (runAndRender tool t1 emptyGuard).state
          else (runAndRender tool t1 emptyGuard).state)).dispatched = [] := by
  cases fin <;>
    simp [runAndRender, runDispatch, emptyGuard, mapGet, mapSet, finishTool, List.find?, h2]

/-- Witness for C4 at a concrete tool call and timestamps 0 and 5000. -/
theorem dedup_within_window_witness :
    (runAndRender { name := "search.web", args := some (.obj [("query", .str "a")]) }
        0 emptyGuard).dispatched.length = 1
    ∧ (runAndRender { name := "search.web", args := some (.obj [("query", .str "a")]) }
        5000 (if false then
            finishTool { name := "search.web", args := some (.obj [("query", .str "a")]) }
              (runAndRender { name := "search.web", args := some (.obj [("query", .str "a")]) }
                0 emptyGuard).state
          else (runAndRender { name := "search.web", args := some (.obj [("query", .str "a")]) }
                0 emptyGuard).state)).handled = true
    ∧ (runAndRender { name := "search.web", args := some (.obj [("query", .str "a")]) }
        5000 (if false then
            finishTool { name := "search.web", args := some (.obj [("query", .str "a")]) }
              (runAndRender { name := "search.web", args := some (.obj [("query", .str "a")]) }
                0 emptyGuard).state
          else (runAndRender { name := "search.web", args := some (.obj [("query", .str "a")]) }
                0 emptyGuard).state)).dispatched = [] :=
  dedup_within_window { name := "search.web", args := some (.obj [("query", .str "a")]) }
    0 5000 false (by decide) (by decide)

/-! ## Python string primitives

Helpers mirroring the Python string operations used by the proxy.  The inputs
exercised by the claims are ASCII; `lower`, `\w` and `\s` are modelled at
ASCII precision. -/

/-- Python `\s` (whitespace) at ASCII precision: space, tab, newline,
carriage return, vertical tab, form feed. -/
def pyWs (c : Char) : Bool :=
  c == ' ' || c == '\t' || c == '\n' || c == '\r' || c == '\x0b' || c == '\x0c'

/-- Python `str.strip()`: remove leading and trailing whitespace. -/
def pyStrip (s : String) : String :=
  ⟨((s.data.dropWhile pyWs).reverse.dropWhile pyWs).reverse⟩

/-- Python `str.strip(chars)`: remove leading and trailing characters drawn
from `chars`. -/
def pyStripChars (s chars : String) : String :=
  ⟨((s.data.dropWhile (fun c => chars.data.contains c)).reverse.dropWhile
      (fun c => chars.data.contains c)).reverse⟩

/-- Python `str.lower()` at ASCII precision (`String.toLower`, written on
the character list so that it reduces in the kernel). -/
def pyLower (s : String) : String := ⟨s.data.map Char.toLower⟩

/-- Python substring test `needle in hay`. -/
def strContainsSub (needle : List Char) : List Char → Bool
  | [] => needle.isEmpty
  | c :: cs => needle.isPrefixOf (c :: cs) || strContainsSub needle cs

/-- Python `\w` (word character) at ASCII precision. -/
def isWordChar (c : Char) : Bool := c.isAlpha || c.isDigit || c == '_'

/-! ## The time-question regex (realtime_proxy.py lines 145-148)

`_TIME_REGEX` is
`\b(?:what\s+time\s+is\s+it\s+in|(?:(?:current|local)\s+)?time\s+in)\s+([A-Za-z ,\-]+?)(?:\b|\s+right\s+now\b|\s+today\b|[\.!?,]|$)`
with `re.IGNORECASE`.  The matcher below implements `re.search` for exactly
this pattern: leftmost position wins; the literal prefix alternations are
mutually exclusive on their first character, so they commit; the `\s+`
before the capture group backtracks (the capture class contains a space);
the capture group is lazy, extending only while no tail alternative
matches. -/

/-- Case-insensitive literal match; returns the remaining input. -/
def matchLitCI : List Char → List Char → Option (List Char)
  | [], s => some s
  | _ :: _, [] => none
  | l :: ls, c :: cs => if c.toLower == l then matchLitCI ls cs else none

/-- `\s+` immediately followed by a non-whitespace literal: consume a
maximal nonempty whitespace run. -/
def matchWs1 : List Char → Option (List Char)
  | [] => none
  | c :: cs => if pyWs c then some (cs.dropWhile pyWs) else none

/-- The prefix alternation
`(?:what\s+time\s+is\s+it\s+in|(?:(?:current|local)\s+)?time\s+in)`.
The branches start with distinct literals, so ordered committed choice
equals full backtracking. -/
def matchTimeIntro (s : List Char) : Option (List Char) :=
  match matchLitCI ("what".data) s >>= matchWs1 >>= matchLitCI ("time".data) >>= matchWs1
      >>= matchLitCI ("is".data) >>= matchWs1 >>= matchLitCI ("it".data) >>= matchWs1
      >>= matchLitCI ("in".data) with
  | some r => some r
  | none =>
    let timeIn := fun (t : List Char) =>
      matchLitCI ("time".data) t >>= matchWs1 >>= matchLitCI ("in".data)
    match (matchLitCI ("current".data) s >>= matchWs1)
        <|> (matchLitCI ("local".data) s >>= matchWs1) with
    | some r =>
      match timeIn r with
      | some r2 => some r2
      | none => timeIn s
    | none => timeIn s

/-- The capture class `[A-Za-z ,\-]`. -/
def isPlaceChar (c : Char) : Bool := c.isAlpha || c == ' ' || c == ',' || c == '-'

/-- `\b` between a previous character (word-ness `prevWord`) and the rest of
the input. -/
def boundaryAt (prevWord : Bool) (rest : List Char) : Bool :=
  prevWord != (match rest with
    | c :: _ => isWordChar c
    | [] => false)

/-- The tail alternation `(?:\b|\s+right\s+now\b|\s+today\b|[\.!?,]|$)`,
evaluated after the capture group whose last character has word-ness
`lastWord`.  (`$` also matches just before a final newline.) -/
def captureTail (lastWord : Bool) (rest : List Char) : Bool :=
  boundaryAt lastWord rest
  || (match matchWs1 rest >>= matchLitCI ("right".data) >>= matchWs1
        >>= matchLitCI ("now".data) with
      | some r => (match r with
          | c :: _ => !isWordChar c
          | [] => true)
      | none => false)
  || (match matchWs1 rest >>= matchLitCI ("today".data) with
      | some r => (match r with
          | c :: _ => !isWordChar c
          | [] => true)
      | none => false)
  || (match rest with
      | c :: _ => c == '.' || c == '!' || c == '?' || c == ','
      | [] => false)
  || rest.isEmpty || rest == ['\n']

/-- The lazy capture loop `([A-Za-z ,\-]+?)` with `accRev` holding the
(nonempty, reversed) capture so far: stop as soon as a tail alternative
matches; otherwise extend by one class character. -/
def captureLoop (lastWord : Bool) (accRev : List Char) (rest : List Char) :
    Option (List Char) :=
  if captureTail lastWord rest then some accRev.reverse
  else match rest with
    | [] => none
    | c :: cs => if isPlaceChar c then captureLoop (isWordChar c) (c :: accRev) cs else none

/-- Start of the capture group: at least one class character. -/
def captureStart : List Char → Option (List Char)
  | [] => none
  | c :: cs => if isPlaceChar c then captureLoop (isWordChar c) [c] cs else none

/-- Greedy `\s+` before the capture group with backtracking: consume as many
whitespace characters as possible, backing off one at a time (the capture
class contains the space character, so shorter whitespace runs can succeed
when longer ones fail). -/
def wsCapAux (s : List Char) : Option (List Char) :=
  match s with
  | [] => captureStart []
  | c :: cs =>
    if pyWs c then
      match wsCapAux cs with
      | some r => some r
      | none => captureStart s
    else captureStart s

/-- `\s+([A-Za-z ,\-]+?)(?:tail)`: at least one whitespace character, then
the capture. -/
def wsThenCapture : List Char → Option (List Char)
  | [] => none
  | c :: cs => if pyWs c then wsCapAux cs else none

/-- `re.search` for `_TIME_REGEX`: try every start position from the left;
at each, require a word boundary, the intro alternation, then whitespace and
the capture. -/
def searchTimeRegex (prevWord : Bool) (s : List Char) : Option (List Char) :=
  match
    (if boundaryAt prevWord s then
      match matchTimeIntro s with
      | some r => wsThenCapture r
      | none => none
    else none) with
  | some cap => some cap
  | none =>
    match s with
    | [] => none
    | c :: cs => searchTimeRegex (isWordChar c) cs

/-- `_extract_place_from_query` (realtime_proxy.py lines 151-158). -/
def _extract_place_from_query (q : String) : Option String :=
  if q == "" then none
  else
    match searchTimeRegex false (pyStrip q).data with
    | some cap => some (pyStripChars ⟨cap⟩ (" -,."))
    | none => none

/-! ## The place → IANA timezone table (realtime_proxy.py lines 103-142) -/

/-- `_CITY_TZ_MAP`, in source (insertion) order. -/
def _CITY_TZ_MAP : List (String × String) :=
  [("new york", "America/New_York"),
   ("nyc", "America/New_York"),
   ("los angeles", "America/Los_Angeles"),
   ("la", "America/Los_Angeles"),
   ("san francisco", "America/Los_Angeles"),
   ("seattle", "America/Los_Angeles"),
   ("chicago", "America/Chicago"),
   ("austin", "America/Chicago"),
   ("denver", "America/Denver"),
   ("london", "Europe/London"),
   ("paris", "Europe/Paris"),
   ("berlin", "Europe/Berlin"),
   ("madrid", "Europe/Madrid"),
   ("rome", "Europe/Rome"),
   ("karachi", "Asia/Karachi"),
   ("pakistan", "Asia/Karachi"),
   ("delhi", "Asia/Kolkata"),
   ("mumbai", "Asia/Kolkata"),
   ("bangalore", "Asia/Kolkata"),
   ("kolkata", "Asia/Kolkata"),
   ("tokyo", "Asia/Tokyo"),
   ("seoul", "Asia/Seoul"),
   ("singapore", "Asia/Singapore"),
   ("hong kong", "Asia/Hong_Kong"),
   ("shanghai", "Asia/Shanghai"),
   ("beijing", "Asia/Shanghai"),
   ("sydney", "Australia/Sydney"),
   ("auckland", "Pacific/Auckland"),
   ("dubai", "Asia/Dubai"),
   ("riyadh", "Asia/Riyadh"),
   ("utc", "Etc/UTC"),
   ("gmt", "Etc/UTC")]

/-- `_map_place_to_tz` (realtime_proxy.py lines 161-173): direct lowercase
key lookup, then first substring match in insertion order. -/
def _map_place_to_tz (place : String) : Option (String × String) :=
  if place == "" then none
  else
    let key := pyStrip (pyLower place)
    match _CITY_TZ_MAP.find? (fun kv => kv.1 == key) with
    | some kv => some (place, kv.2)
    | none =>
      match _CITY_TZ_MAP.find? (fun kv => strContainsSub kv.1.data key.data) with
      | some kv => some (place, kv.2)
      | none => none

/-! ## JSON-level Python helpers for the `/tool` handler -/

/-- Python truthiness of a JSON value. -/
def pyTruthy : Json → Bool
  | .null => false
  | .bool b => b
  | .num n => !(n == 0)
  | .str s => !(s == "")
  | .arr l => !l.isEmpty
  | .obj l => !l.isEmpty

/-- `args.get(k)` (JSON objects carry no duplicate keys). -/
def dictGet (args : List (String × Json)) (k : String) : Option Json :=
  (args.find? (fun p => p.1 == k)).map (fun p => p.2)

/-- `args.get(k, d)`. -/
def dictGetD (args : List (String × Json)) (k : String) (d : Json) : Json :=
  (dictGet args k).getD d

/-- Python `a or b` on JSON values. -/
def pyOr (a b : Json) : Json := if pyTruthy a then a else b

/-- A value used where Python requires a `str` (e.g. before `.strip()`);
`none` models the `AttributeError` raised otherwise. -/
def asStr : Json → Option String
  | .str s => some s
  | _ => none

/-- Python `int(x)` on a JSON value; `none` models the raised
`TypeError`/`ValueError`. -/
def pyInt : Json → Option Int
  | .num n => some n
  | .bool b => some (if b then 1 else 0)
  | .str s => (pyStrip s).toInt?
  | _ => none

/-- Python list slicing `l[:n]`, including negative `n`. -/
def pySliceTo (n : Int) (l : List Json) : List Json :=
  if 0 ≤ n then l.take n.toNat
  else l.take ((l.length + n).toNat)

/-- The error body `{"success": false, "error": e}`. -/
def errJson (e : String) : Json :=
  .obj [("success", .bool false), ("error", .str e)]

/-- `resp.text[:500] + "…"` truncation (realtime_proxy.py line 457). -/
def truncate500 (s : String) : String :=
  if s.length > 500 then (s.take 500 ++ "…") else s

/-- Field access on a JSON object body, used to state claims. -/
def getField (j : Json) (k : String) : Option Json :=
  match j with
  | .obj fs => dictGet fs k
  | _ => none

/-- Python f-string interpolation `f"...{v}"` of a JSON value.  Scalars are
rendered faithfully; containers use an abbreviated repr (no claim inspects
that case). -/
def pyStrOf : Json → String
  | .null => "None"
  | .bool b => if b then ("True") else ("False")
  | .num n => toString n
  | .str s => s
  | .arr _ => "[...]"
  | .obj _ => "\x7b...\x7d"

/-- Modelling constant: the `str(e)` of the exception raised by a failing
`resp.json()`; no claim inspects this text. -/
def jsonDecodeErr : String := "Expecting value: line 1 column 1 (char 0)"

/-- Modelling constant: the `str(e)` of a `TypeError`/`AttributeError`
raised on unexpectedly-shaped data; no claim inspects this text. -/
def pyTypeErr : String := "TypeError"

/-- The FastAPI fallback response for an exception raised outside the
handler's own `try` blocks. -/
def internalError : Json × Nat := (.str "Internal Server Error", 500)

/-! ## The `/tool` handler (realtime_proxy.py lines 176-529) -/

/-- An upstream response for the JSON-speaking endpoints: status, raw text,
and parsed body (`none` when `resp.json()` would raise). -/
structure JResp where
  status : Nat
  text : String
  json : Option Json

abbrev ExJResp := Except String JResp

/-- Oracles for the four outbound targets of `/tool`.  `timeApi` and `ddg`
are indexed by the ordinal of the call within the request (the handler can
call each up to twice). -/
structure Net where
  timeApi : Nat → String → ExJResp
  tavily : ExJResp
  ddg : Nat → ExJResp
  imageApi : ExJResp

/-- A tag per outbound HTTP call, in order of issue. -/
inductive UpCall where
  | timeApi (tz : String)
  | tavily
  | ddg
  | imageApi
deriving DecidableEq, Repr

/-- A `JSONResponse`: HTTP status and JSON body. -/
structure ToolResult where
  status : Nat
  body : Json

/-- Number of time-API calls already in a trace (used to index the oracle). -/
def countTimeCalls (tr : List UpCall) : Nat :=
  (tr.filter (fun c => match c with | .timeApi _ => true | _ => false)).length

/-- One guarded time lookup (realtime_proxy.py lines 383-400 and 500-516):
call the time API; on a 200 with a JSON object body, return the `time`
result; on any other status, parse failure, non-object body or exception,
fall through (`except: pass`). -/
def timeLookup (net : Net) (idx : Nat) (placeLabel tz : String) :
    Option ToolResult × List UpCall :=
  match net.timeApi idx tz with
  | .error _ => (none, [.timeApi tz])
  | .ok r =>
    if r.status == 200 then
      match r.json with
      | some (.obj tf) =>
        (some ⟨200, .obj
            [("success", .bool true), ("type", .str "time"),
             ("place", .str placeLabel), ("tz", .str tz),
             ("datetime_iso", dictGetD tf "datetime" .null),
             ("utc_offset", dictGetD tf "utc_offset" .null),
             ("abbreviation", dictGetD tf "abbreviation" .null),
             ("source_url", .str ("https://worldtimeapi.org/api/timezone/" ++ tz))]⟩,
         [.timeApi tz])
      | _ => (none, [.timeApi tz])
    else (none, [.timeApi tz])

/-- The `search`-typed success body (realtime_proxy.py lines 518-524). -/
def searchSuccess (query provider : String) (results : List Json) : ToolResult :=
  { status := 200, body := .obj
      [("success", .bool true), ("type", .str "search"), ("query", .str query),
       ("results", .arr results), ("provider", .str provider)] }

/-- Lines 492-524: if the provider produced no results and the query is
time-like with a mapped place, attempt the time resolver once more before
returning the (possibly empty) search result. -/
def afterSearch (net : Net) (query provider : String) (results : List Json)
    (tr : List UpCall) : ToolResult × List UpCall :=
  if results.isEmpty then
    match _extract_place_from_query query with
    | some place =>
      if !(place == "") then
        match _map_place_to_tz place with
        | some (label, tz) =>
          match timeLookup net (countTimeCalls tr) label tz with
          | (some res, tr2) => (res, tr ++ tr2)
          | (none, tr2) => (searchSuccess query provider results, tr ++ tr2)
        | none => (searchSuccess query provider results, tr)
      else (searchSuccess query provider results, tr)
    | none => (searchSuccess query provider results, tr)
  else (searchSuccess query provider results, tr)

/-- One result row produced from a Tavily item (lines 423-430); `none`
models the `AttributeError` on a non-object item. -/
def tavilyItem (item : Json) : Option Json :=
  match item with
  | .obj f => some (.obj
      [("title", pyOr (dictGetD f "title" .null) (dictGetD f "url" .null)),
       ("url", dictGetD f "url" .null),
       ("snippet", pyOr (dictGetD f "content" .null) (pyOr (dictGetD f "snippet" .null) (.str ""))),
       ("score", dictGetD f "score" .null),
       ("source", .str "tavily")])
  | _ => none

/-- `"FirstURL" in it` on an object's fields. -/
def hasKeyFirstURL (f : List (String × Json)) : Bool := (dictGet f "FirstURL").isSome

/-- The inner loop of `iter_related` over `it.get("Topics", []) or []`
(lines 480-482), yielding the fields of each sub-entry carrying `FirstURL`;
`none` models a raised exception (non-iterable `Topics`, or a yielded
non-object that the consumer's `.get` would explode on). -/
def ddgSubEntries (v : Json) : Option (List (List (String × Json))) :=
  match pyOr v (.arr []) with
  | .arr l =>
    (l.mapM (fun (sub : Json) =>
      match sub with
      | .obj g => some (if hasKeyFirstURL g then [g] else [])
      | .str s => if strContainsSub ("FirstURL".data) s.data then none else some []
      | .arr l2 =>
        if l2.any (fun j => match j with | .str s => s == "FirstURL" | _ => false)
        then none else some []
      | _ => none)).map List.flatten
  | .str _ => some []
  | .obj g =>
    if g.any (fun p => strContainsSub ("FirstURL".data) p.1.data) then none else some []
  | _ => none

/-- `iter_related(data.get("RelatedTopics"))` (lines 476-483): one flattening
level over the related topics. -/
def ddgRelated (items : Json) : Option (List (List (String × Json))) :=
  match pyOr items (.arr []) with
  | .arr l =>
    (l.mapM (fun (it : Json) =>
      match it with
      | .obj f =>
        (ddgSubEntries ((dictGet f "Topics").getD (.arr []))).map (fun subs =>
          (if hasKeyFirstURL f then [f] else []) ++ subs)
      | _ => none)).map List.flatten
  | _ => none

/-- One result row from a related-topics entry (lines 484-489). -/
def ddgItem (f : List (String × Json)) : Json :=
  .obj [("title", pyOr (dictGetD f "Text" .null) (dictGetD f "FirstURL" .null)),
        ("url", dictGetD f "FirstURL" .null),
        ("snippet", pyOr (dictGetD f "Text" .null) (.str "")),
        ("source", .str "duckduckgo")]

/-- The error text of line 460. -/
def ddgErrMsg (r : JResp) : String :=
  "provider=duckduckgo status=" ++ toString r.status ++ " body=" ++ truncate500 r.text

/-- Lines 441-464: obtain the DuckDuckGo payload.  First call; on 200 parse
it; on 202 treat as empty; otherwise retry exactly once and, if the retry
does not return 200, surface the FIRST response's status and truncated body
as the error. -/
def ddgData (net : Net) (tr : List UpCall) :
    Except (ToolResult × List UpCall) (Json × List UpCall) :=
  match net.ddg 0 with
  | .error e => .error ({ status := 500, body := errJson e }, tr ++ [.ddg])
  | .ok r =>
    if r.status == 200 then
      match r.json with
      | some d => .ok (d, tr ++ [.ddg])
      | none => .error ({ status := 500, body := errJson jsonDecodeErr }, tr ++ [.ddg])
    else if r.status == 202 then .ok (.obj [], tr ++ [.ddg])
    else
      match net.ddg 1 with
      | .error _ =>
        .error ({ status := r.status, body := errJson (ddgErrMsg r) }, tr ++ [.ddg, .ddg])
      | .ok r2 =>
        if r2.status == 200 then
          match r2.json with
          | some d => .ok (d, tr ++ [.ddg, .ddg])
          | none => .error ({ status := 500, body := errJson jsonDecodeErr }, tr ++ [.ddg, .ddg])
        else .error ({ status := r.status, body := errJson (ddgErrMsg r) }, tr ++ [.ddg, .ddg])

/-- Lines 465-490: build the DuckDuckGo result rows from the payload
(abstract, then flattened related topics), truncated to `max_results`.
`none` models a raised exception. -/
def ddgCollect (data : Json) (priorResults : List Json) (maxResults : Int) :
    Option (List Json) :=
  match data with
  | .obj f =>
    match asStr (pyOr (dictGetD f "AbstractText" .null) (.str "")) with
    | none => none
    | some at0 =>
      let abstractText := pyStrip at0
      match asStr (pyOr (dictGetD f "AbstractURL" .null) (.str "")) with
      | none => none
      | some au0 =>
        let abstractUrl : Json :=
          pyOr (.str (pyStrip au0)) (pyOr (dictGetD f "AbstractSource" .null) (.str ""))
        let withAbstract :=
          if !(abstractText == "") && pyTruthy abstractUrl then
            priorResults ++ [.obj
              [("title", pyOr (dictGetD f "Heading" .null) abstractUrl),
               ("url", abstractUrl),
               ("snippet", .str abstractText),
               ("source", .str "duckduckgo")]]
          else priorResults
        match ddgRelated (dictGetD f "RelatedTopics" .null) with
        | none => none
        | some rel => some (pySliceTo maxResults (withAbstract ++ rel.map ddgItem))
  | _ => none

/-- Lines 377-400: the time short-circuit attempted before any provider
call. -/
def timeShortCircuit (net : Net) (query : String) : Option ToolResult × List UpCall :=
  match _extract_place_from_query query with
  | some place =>
    if !(place == "") then
      match _map_place_to_tz place with
      | some (label, tz) => timeLookup net 0 label tz
      | none => (none, [])
    else (none, [])
  | none => (none, [])

/-- Lines 402-524: provider selection with silent downgrade, the provider
call, and the empty-result fallback. -/
def providerSearch (tavilyKey : Option String) (net : Net) (query provider0 : String)
    (maxResults : Int) (tr0 : List UpCall) : ToolResult × List UpCall :=
  if provider0 == "tavily" && pyTruthyOptStr tavilyKey then
      match net.tavily with
      | .error e => ({ status := 500, body := errJson e }, tr0 ++ [.tavily])
      | .ok r =>
        if !(r.status == 200) then
          ({ status := r.status,
             body := errJson ("Search error " ++ toString r.status ++ ": " ++ r.text) },
           tr0 ++ [.tavily])
        else
          match r.json with
          | none => ({ status := 500, body := errJson jsonDecodeErr }, tr0 ++ [.tavily])
          | some (.obj f) =>
            match (dictGet f "results").getD (.arr []) with
            | .arr items =>
              match (pySliceTo maxResults items).mapM tavilyItem with
              | some results => afterSearch net query provider0 results (tr0 ++ [.tavily])
              | none => ({ status := 500, body := errJson pyTypeErr }, tr0 ++ [.tavily])
            | _ => ({ status := 500, body := errJson pyTypeErr }, tr0 ++ [.tavily])
          | some _ => ({ status := 500, body := errJson pyTypeErr }, tr0 ++ [.tavily])
    else
      let provider := if provider0 == "tavily" then ("duckduckgo") else provider0
      if provider == "duckduckgo" then
        match ddgData net tr0 with
        | .error out => out
        | .ok (data, tr1) =>
          match ddgCollect data [] maxResults with
          | some results => afterSearch net query provider results tr1
          | none => ({ status := 500, body := errJson pyTypeErr }, tr1)
      else
        afterSearch net query provider [] tr0

/-- The body of the `search.web` `try` block (lines 375-527), after argument
parsing: time short-circuit, then the provider search. -/
def searchWebTry (tavilyKey : Option String) (net : Net) (query provider0 : String)
    (maxResults : Int) : ToolResult × List UpCall :=
  match timeShortCircuit net query with
  | (some res, tr) => (res, tr)
  | (none, tr0) => providerSearch tavilyKey net query provider0 maxResults tr0

/-- The `search.web` branch (lines 368-527): argument parsing, then the
guarded body.  An exception raised before the `try` block (non-string
`query`/`provider`, unparseable `max_results`) escapes the handler and
becomes the framework's plain 500. -/
def searchWeb (tavilyKey : Option String) (net : Net) (args : List (String × Json)) :
    ToolResult × List UpCall :=
  match asStr (pyOr (dictGetD args "query" .null) (pyOr (dictGetD args "q" .null) (.str ""))) with
  | none => ({ status := internalError.2, body := internalError.1 }, [])
  | some q0 =>
    let query := pyStrip q0
    match asStr (pyOr (dictGetD args "provider" .null) (.str "")) with
    | none => ({ status := internalError.2, body := internalError.1 }, [])
    | some p0 =>
      let providerRaw := pyStrip (pyLower p0)
      let provider0 := if providerRaw == "" then
          (if pyTruthyOptStr tavilyKey then ("tavily") else ("duckduckgo"))
        else providerRaw
      match pyInt ((dictGet args "max_results").getD (.num 6)) with
      | none => ({ status := internalError.2, body := internalError.1 }, [])
      | some maxResults =>
        if query == "" then ({ status := 400, body := errJson "query required" }, [])
        else searchWebTry tavilyKey net query provider0 maxResults

/-- The `image.generate` branch (lines 193-230).  The prompt/size/style
values only shape the outbound request payload, which the call trace does
not carry. -/
def imageGen (net : Net) (args : List (String × Json)) : ToolResult × List UpCall :=
  let prompt := dictGetD args "prompt" (.str "")
  if !(pyTruthy prompt) then ({ status := 400, body := errJson "prompt required" }, [])
  else
    match net.imageApi with
    | .error e => ({ status := 500, body := errJson e }, [.imageApi])
    | .ok r =>
      if !(r.status == 200) then
        ({ status := r.status,
           body := errJson ("OpenAI error " ++ toString r.status ++ ": " ++ r.text) },
         [.imageApi])
      else
        match r.json with
        | none => ({ status := 500, body := errJson jsonDecodeErr }, [.imageApi])
        | some (.obj f) =>
          match (dictGet f "data").getD (.arr [.obj []]) with
          | .arr (first :: _) =>
            match first with
            | .obj g =>
              let b64 := dictGetD g "b64_json" .null
              if !(pyTruthy b64) then
                ({ status := 500, body := errJson "No image data returned" }, [.imageApi])
              else
                ({ status := 200, body := .obj
                    [("success", .bool true), ("type", .str "image"),
                     ("mime", .str "image/png"),
                     ("data_url", .str ("data:image/png;base64," ++ pyStrOf b64))] },
                 [.imageApi])
            | _ => ({ status := 500, body := errJson pyTypeErr }, [.imageApi])
          | _ => ({ status := 500, body := errJson pyTypeErr }, [.imageApi])
        | some _ => ({ status := 500, body := errJson pyTypeErr }, [.imageApi])

/-! ### `file.save` helpers -/

/-- Index of the last occurrence of a character (Python `str.rfind`). -/
def lastIdxOf (c : Char) : List Char → Option Nat
  | [] => none
  | x :: xs =>
    match lastIdxOf c xs with
    | some i => some (i + 1)
    | none => if x == c then some 0 else none

/-- `os.path.splitext` (posix): split at the last dot, provided it lies in
the basename and some earlier basename character is not a dot (leading dots
do not start an extension). -/
def splitext (s : String) : String × String :=
  let cs := s.data
  let fnStart := ((lastIdxOf '/' cs).map (fun i => i + 1)).getD 0
  match lastIdxOf '.' cs with
  | none => (s, "")
  | some di =>
    if fnStart ≤ di && ((cs.drop fnStart).take (di - fnStart)).any (fun c => !(c == '.')) then
      (⟨cs.take di⟩, ⟨cs.drop di⟩)
    else (s, "")

/-- `ext.lstrip(".")`. -/
def lstripDots (s : String) : String := ⟨s.data.dropWhile (fun c => c == '.')⟩

/-- The character class `[A-Za-z0-9._\- ]` of line 272, written on code
points (`A-Z` is 65-90, `a-z` is 97-122, `0-9` is 48-57). -/
def allowedFileChar (c : Char) : Bool :=
  (65 ≤ c.toNat && c.toNat ≤ 90) || (97 ≤ c.toNat && c.toNat ≤ 122) ||
  (48 ≤ c.toNat && c.toNat ≤ 57) || c == '.' || c == '_' || c == '-' || c == ' '

/-- `re.sub(r"[^A-Za-z0-9._\- ]+", "_", filename)`: each maximal run of
disallowed characters becomes a single underscore. -/
def sanitizeRuns (inRun : Bool) : List Char → List Char
  | [] => []
  | c :: cs =>
    if allowedFileChar c then c :: sanitizeRuns false cs
    else if inRun then sanitizeRuns true cs
    else '_' :: sanitizeRuns true cs

/-- The alias table of lines 250-257. -/
def aliasFmt (f : String) : String :=
  if f == "doc" then ("docx")
  else if f == "ppt" then ("pptx")
  else if f == "xls" then ("xlsx")
  else if f == "markdown" then ("md")
  else if f == "text" then ("txt")
  else f

/-- The formats with a handler (lines 276-361); every handler returns the
same success shape, and any other format reaches the 400 of line 363. -/
def supportedFormats : List String :=
  ["txt", "md", "json", "py", "pdf", "docx", "csv", "xlsx", "pptx"]

/-- Lines 245-257: infer the format from the filename extension when no
explicit one is given, then normalize through the alias table. -/
def normalizeFmt (filename0 fmt0 : String) : String :=
  aliasFmt (if fmt0 == "" && !(filename0 == "") then
      pyLower (lstripDots (splitext filename0).2)
    else fmt0)

/-- Lines 262-269: default (date-stamped) filename when none was given, then
correction of the extension to match the normalized format. -/
def resolveFilename (stamp filename0 fmt : String) : String :=
  let filename1 := if filename0 == "" then
      "alita_output-" ++ stamp ++ "." ++ (if fmt == "" then ("txt") else fmt)
    else filename0
  if !(pyLower (lstripDots (splitext filename1).2) == fmt) then
    (splitext filename1).1 ++ "." ++ fmt
  else filename1

/-- Lines 245-363 of the `file.save` branch, after argument extraction:
format inference/normalization, the `format required` 400, filename
resolution, sanitization, and the per-format handlers. -/
def fileSaveCore (baseDir stamp filename0 fmt0 : String) : ToolResult :=
  let fmt := normalizeFmt filename0 fmt0
  if fmt == "" then { status := 400, body := errJson "format required" }
  else
    let safe := pyStrip ⟨sanitizeRuns false (resolveFilename stamp filename0 fmt).data⟩
    let path := baseDir ++ "/" ++ safe
    if supportedFormats.contains fmt then
      { status := 200, body := .obj
          [("success", .bool true), ("type", .str "file"), ("path", .str path),
           ("filename", .str safe), ("format", .str fmt)] }
    else { status := 400, body := errJson ("unsupported format: " ++ fmt) }

/-- The `file.save` branch (lines 232-366).  Filesystem writes and the
per-format renderer libraries are modelled as succeeding; the response
carries the computed path, sanitized filename and normalized format exactly
as the source builds them.  `baseDir` abstracts the resolved
`../scratchpad/saved` directory and `stamp` the `datetime.now()` timestamp
of the default filename.  `content`/`rows` only affect the written bytes,
not the response. -/
def fileSave (baseDir stamp : String) (args : List (String × Json)) : ToolResult :=
  let filenameRaw :=
    if args.isEmpty then some ""
    else asStr (pyOr (dictGetD args "filename" .null) (pyOr (dictGetD args "name" .null) (.str "")))
  match filenameRaw with
  | none => { status := 500, body := errJson pyTypeErr }
  | some fn0 =>
    let fmtRaw :=
      if args.isEmpty then some ""
      else asStr (pyOr (dictGetD args "format" .null) (pyOr (dictGetD args "type" .null) (.str "")))
    match fmtRaw with
    | none => { status := 500, body := errJson pyTypeErr }
    | some f0 =>
      fileSaveCore baseDir stamp (pyStrip fn0) (pyLower (pyStrip f0))

/-- The `/tool` handler `tool_exec` (lines 176-529): credential check first,
then dispatch on the tool name; unknown names get the 400 of line 529. -/
def tool_exec (openaiKey tavilyKey : Option String) (baseDir stamp : String) (net : Net)
    (name : String) (payloadArgs : Option (List (String × Json))) :
    ToolResult × List UpCall :=
  if !(pyTruthyOptStr openaiKey) then
    ({ status := 500, body := errJson "OPENAI_API_KEY not configured" }, [])
  else
    let args := payloadArgs.getD []
    if name == "image.generate" then imageGen net args
    else if name == "file.save" then (fileSave baseDir stamp args, [])
    else if name == "search.web" then searchWeb tavilyKey net args
    else ({ status := 400, body := errJson ("unknown tool: " ++ name) }, [])

theorem key_configured {k : String} (hk : k ≠ "") : pyTruthyOptStr (some k) = true := by
  simp [pyTruthyOptStr, hk]

/-! ## Claim C10: the credential check precedes every per-tool validation -/

/-- C10: for every /tool request, the credential-configured check runs before
any per-tool validation: when `OPENAI_API_KEY` is unset, every request —
including `file.save` (which needs no OpenAI credential) and requests with an
unrecognized tool name — returns status 500 with error
`"OPENAI_API_KEY not configured"` and performs no outbound call, never the
400 that missing-argument or unknown-tool validation would otherwise
produce. -/
theorem tool_requires_credential (openaiKey tavilyKey : Option String)
    (baseDir stamp : String) (net : Net) (name : String)
    (args : Option (List (String × Json)))
    (hk : pyTruthyOptStr openaiKey = false) :
    tool_exec openaiKey tavilyKey baseDir stamp net name args
      = ({ status := 500, body := errJson "OPENAI_API_KEY not configured" }, []) := by
  simp [tool_exec, hk]

/-- Witness for C10: with no key, both a `file.save` request whose arguments
are otherwise valid and a request with an unknown tool name get the 500. -/
theorem tool_requires_credential_witness :
    tool_exec none (some "T") "/base" "STAMP"
        ⟨fun _ _ => .error "net", .error "net", fun _ => .error "net", .error "net"⟩
        "file.save" (some [("filename", .str "report.pdf")])
      = ({ status := 500, body := errJson "OPENAI_API_KEY not configured" }, [])
    ∧ tool_exec none (some "T") "/base" "STAMP"
        ⟨fun _ _ => .error "net", .error "net", fun _ => .error "net", .error "net"⟩
        "no.such.tool" none
      = ({ status := 500, body := errJson "OPENAI_API_KEY not configured" }, []) :=
  ⟨tool_requires_credential none (some "T") "/base" "STAMP"
      ⟨fun _ _ => .error "net", .error "net", fun _ => .error "net", .error "net"⟩
      "file.save" (some [("filename", .str "report.pdf")]) rfl,
   tool_requires_credential none (some "T") "/base" "STAMP"
      ⟨fun _ _ => .error "net", .error "net", fun _ => .error "net", .error "net"⟩
      "no.such.tool" none rfl⟩

/-! ## Claim C6: `image.generate` validation rejects empty prompts -/

/-- C6: for every /tool request naming `image.generate` whose args carry an
empty (or missing) `prompt` — with a credential configured, per C10 the
credential check runs first — the response is status 400 and no outbound
HTTP call is attempted. -/
theorem imagegen_empty_prompt_rejected (k : String) (tavilyKey : Option String)
    (baseDir stamp : String) (net : Net) (args : List (String × Json))
    (hk : k ≠ "")
    (hp : dictGet args "prompt" = none ∨ dictGet args "prompt" = some (.str "")) :
    tool_exec (some k) tavilyKey baseDir stamp net "image.generate" (some args)
      = ({ status := 400, body := errJson "prompt required" }, []) := by
  have hpt : pyTruthy (dictGetD args "prompt" (.str "")) = false := by
    rcases hp with h | h <;> simp [dictGetD, h, pyTruthy]
  simp [tool_exec, key_configured hk, imageGen, hpt]

/-- Witness for C6: missing prompt, concrete environment; no call happens
even though the image oracle is live. -/
theorem imagegen_empty_prompt_rejected_witness :
    tool_exec (some "K") none "/base" "STAMP"
        ⟨fun _ _ => .error "net", .error "net", fun _ => .error "net",
         .ok { status := 200, text := "", json := some (.obj []) }⟩
        "image.generate" (some [("size", .str "1024x1024")])
      = ({ status := 400, body := errJson "prompt required" }, []) :=
  imagegen_empty_prompt_rejected "K" none "/base" "STAMP"
    ⟨fun _ _ => .error "net", .error "net", fun _ => .error "net",
     .ok { status := 200, text := "", json := some (.obj []) }⟩
    [("size", .str "1024x1024")] (by decide) (Or.inl rfl)

/-! ## Claim C3: the "time in Tokyo" short-circuit -/

/-- C3: a /tool request for `search.web` with query `"time in Tokyo"` (with a
credential configured and the time API answering 200 with a JSON object)
returns a result with type `"time"` and tz `"Asia/Tokyo"`, and no search
provider — neither the premium nor the free one — is invoked. -/
theorem searchweb_time_tokyo (k : String) (tavilyKey : Option String)
    (baseDir stamp : String) (net : Net) (tf : List (String × Json)) (rtext : String)
    (hk : k ≠ "")
    (ht : net.timeApi 0 "Asia/Tokyo" = .ok { status := 200, text := rtext, json := some (.obj tf) }) :
    (tool_exec (some k) tavilyKey baseDir stamp net "search.web"
        (some [("query", .str "time in Tokyo")])).1.status = 200
    ∧ getField (tool_exec (some k) tavilyKey baseDir stamp net "search.web"
        (some [("query", .str "time in Tokyo")])).1.body "type" = some (.str "time")
    ∧ getField (tool_exec (some k) tavilyKey baseDir stamp net "search.web"
        (some [("query", .str "time in Tokyo")])).1.body "tz" = some (.str "Asia/Tokyo")
    ∧ (tool_exec (some k) tavilyKey baseDir stamp net "search.web"
        (some [("query", .str "time in Tokyo")])).2 = [UpCall.timeApi "Asia/Tokyo"]
    ∧ UpCall.tavily ∉ (tool_exec (some k) tavilyKey baseDir stamp net "search.web"
        (some [("query", .str "time in Tokyo")])).2
    ∧ UpCall.ddg ∉ (tool_exec (some k) tavilyKey baseDir stamp net "search.web"
        (some [("query", .str "time in Tokyo")])).2 := by
  have hq : pyStrip "time in Tokyo" = "time in Tokyo" := by decide
  have he : _extract_place_from_query "time in Tokyo" = some "Tokyo" := by decide
  have hm : _map_place_to_tz "Tokyo" = some ("Tokyo", "Asia/Tokyo") := by decide
  have hmain : tool_exec (some k) tavilyKey baseDir stamp net "search.web"
      (some [("query", .str "time in Tokyo")])
      = (⟨200, .obj
          [("success", .bool true), ("type", .str "time"),
           ("place", .str "Tokyo"), ("tz", .str "Asia/Tokyo"),
           ("datetime_iso", dictGetD tf "datetime" .null),
           ("utc_offset", dictGetD tf "utc_offset" .null),
           ("abbreviation", dictGetD tf "abbreviation" .null),
           ("source_url", .str ("https://worldtimeapi.org/api/timezone/" ++ "Asia/Tokyo"))]⟩,
         [UpCall.timeApi "Asia/Tokyo"]) := by
    simp [tool_exec, key_configured hk, searchWeb, searchWebTry, timeShortCircuit, dictGetD,
      dictGet, List.find?, pyOr, pyTruthy, asStr, pyInt, hq, he, hm, timeLookup, ht,
      show pyStrip (pyLower "") = "" from by decide]
  rw [hmain]
  simp [getField, dictGet, List.find?]

/-- A concrete environment for the C3 witness: the time API answers 200 with
a fixed payload; every other oracle raises. -/
def tokyoNet : Net :=
  { timeApi := fun _ _ => .ok ⟨200, "", some (.obj [("datetime", .str "2026-10-12T09:00:00+09:00")])⟩
    tavily := .error "net"
    ddg := fun _ => .error "net"
    imageApi := .error "net" }

/-- Witness for C3 at a concrete key, time oracle and query. -/
theorem searchweb_time_tokyo_witness :
    (tool_exec (some "K") none "/base" "STAMP" tokyoNet "search.web"
        (some [("query", .str "time in Tokyo")])).1.status = 200
    ∧ getField (tool_exec (some "K") none "/base" "STAMP" tokyoNet "search.web"
        (some [("query", .str "time in Tokyo")])).1.body "type" = some (.str "time")
    ∧ getField (tool_exec (some "K") none "/base" "STAMP" tokyoNet "search.web"
        (some [("query", .str "time in Tokyo")])).1.body "tz" = some (.str "Asia/Tokyo")
    ∧ (tool_exec (some "K") none "/base" "STAMP" tokyoNet "search.web"
        (some [("query", .str "time in Tokyo")])).2 = [UpCall.timeApi "Asia/Tokyo"]
    ∧ UpCall.tavily ∉ (tool_exec (some "K") none "/base" "STAMP" tokyoNet "search.web"
        (some [("query", .str "time in Tokyo")])).2
    ∧ UpCall.ddg ∉ (tool_exec (some "K") none "/base" "STAMP" tokyoNet "search.web"
        (some [("query", .str "time in Tokyo")])).2 :=
  searchweb_time_tokyo "K" none "/base" "STAMP" tokyoNet
    [("datetime", .str "2026-10-12T09:00:00+09:00")] "" (by decide) rfl

/-! ## Claim C7: one retry for the free provider's transient failure -/

/-- C7: when the free (DuckDuckGo) search provider returns a non-2xx
transient-failure status for a (non-time) query, exactly one retry is
performed; if the retry also fails (non-200 or exception), the response is
`{success:false, error:...}` carrying the original upstream status and the
body truncated to 500 characters, and no provider is called more than twice
— the exact trace is two DuckDuckGo calls and nothing else. -/
theorem ddg_transient_retry_once (k : String) (tavilyKey : Option String)
    (baseDir stamp : String) (net : Net) (q : String) (r1 : JResp)
    (hk : k ≠ "")
    (hq : pyStrip q ≠ "")
    (hplace : _extract_place_from_query (pyStrip q) = none)
    (h1 : net.ddg 0 = .ok r1)
    (hs1 : r1.status < 200 ∨ 299 < r1.status)
    (h2 : (∃ r2, net.ddg 1 = .ok r2 ∧ r2.status ≠ 200) ∨ (∃ e, net.ddg 1 = .error e)) :
    tool_exec (some k) tavilyKey baseDir stamp net "search.web"
        (some [("query", .str q), ("provider", .str "duckduckgo")])
      = ({ status := r1.status,
           body := errJson ("provider=duckduckgo status=" ++ toString r1.status
             ++ " body=" ++ truncate500 r1.text) }, [UpCall.ddg, UpCall.ddg]) := by
  have hq0 : (q == "") = false := by
    rcases eq_or_ne q "" with rfl | hne
    · exact absurd (by decide) hq
    · simpa using hne
  have hqs : (pyStrip q == "") = false := by simpa using hq
  have hne200 : (r1.status == 200) = false := by
    rcases hs1 with h | h <;> simp <;> omega
  have hne202 : (r1.status == 202) = false := by
    rcases hs1 with h | h <;> simp <;> omega
  have hdd : pyStrip (pyLower "duckduckgo") = "duckduckgo" := by decide
  rcases h2 with ⟨r2, h2e, h2s⟩ | ⟨e, h2e⟩
  · have h2s' : (r2.status == 200) = false := by simpa using h2s
    simp [tool_exec, key_configured hk, searchWeb, dictGetD, dictGet, List.find?, pyOr,
      pyTruthy, hq0, asStr, pyInt, hqs, searchWebTry, timeShortCircuit, providerSearch,
      hplace, hdd, ddgData, h1, hne200, hne202, h2e, h2s', ddgErrMsg]
  · simp [tool_exec, key_configured hk, searchWeb, dictGetD, dictGet, List.find?, pyOr,
      pyTruthy, hq0, asStr, pyInt, hqs, searchWebTry, timeShortCircuit, providerSearch,
      hplace, hdd, ddgData, h1, hne200, hne202, h2e, ddgErrMsg]

/-- A concrete environment for the C7 witness: DuckDuckGo answers 503 twice. -/
def busyNet : Net :=
  { timeApi := fun _ _ => .error "net"
    tavily := .error "net"
    ddg := fun i => if i == 0 then .ok ⟨503, "busy", none⟩ else .ok ⟨503, "busy2", none⟩
    imageApi := .error "net" }

/-- Witness for C7: a 503 from DuckDuckGo, retried once, surfaces the first
503 with its body, after exactly two calls. -/
theorem ddg_transient_retry_once_witness :
    tool_exec (some "K") none "/base" "STAMP" busyNet "search.web"
        (some [("query", .str "gold price"), ("provider", .str "duckduckgo")])
      = ({ status := 503,
           body := errJson ("provider=duckduckgo status=" ++ toString (503 : Nat)
             ++ " body=" ++ truncate500 "busy") }, [UpCall.ddg, UpCall.ddg]) :=
  ddg_transient_retry_once "K" none "/base" "STAMP" busyNet "gold price"
    ⟨503, "busy", none⟩ (by decide) (by decide) (by decide) rfl
    (by decide)
    (Or.inl ⟨⟨503, "busy2", none⟩, rfl, by decide⟩)

/-! ## Claim C8: the two-step place → timezone match -/

/-- `find?` returns the first element satisfying the predicate. -/
theorem find?_eq_get_of_first {α : Type} (p : α → Bool) (l : List α) :
    ∀ (i : Fin l.length), p (l.get i) = true →
      (∀ j : Fin l.length, (j : Nat) < (i : Nat) → p (l.get j) = false) →
      l.find? p = some (l.get i) := by
  induction l with
  | nil => intro i; exact absurd i.2 (by simp)
  | cons a t ih =>
    intro i hp hb
    cases i using Fin.cases with
    | zero =>
      rw [List.find?_cons_of_pos _ (by simpa using hp)]
      simp
    | succ i' =>
      have ha : p a = false := by simpa using hb ⟨0, by simp⟩ (by simp)
      rw [List.find?_cons_of_neg _ (by simp [ha])]
      rw [show (a :: t).get i'.succ = t.get i' from by simp]
      exact ih i' (by simpa using hp) (fun j hj => by
        simpa using hb j.succ (by simpa using hj))

/-- The trace of `afterSearch` extends its input trace. -/
theorem afterSearch_trace_extends (net : Net) (query provider : String)
    (results : List Json) (tr : List UpCall) :
    ∃ rest, (afterSearch net query provider results tr).2 = tr ++ rest := by
  unfold afterSearch
  repeat' split
  all_goals first
    | exact ⟨_, rfl⟩
    | exact ⟨[], by simp⟩

/-- The trace component of either outcome of a network branch. -/
def traceOf (e : Except (ToolResult × List UpCall) (Json × List UpCall)) : List UpCall :=
  match e with
  | .error out => out.2
  | .ok p => p.2

/-- Whatever `ddgData` returns, its trace component extends the input trace
by at least one DuckDuckGo call. -/
theorem ddgData_trace (net : Net) (tr : List UpCall) :
    ∃ rest, traceOf (ddgData net tr) = tr ++ UpCall.ddg :: rest := by
  unfold ddgData
  repeat' split
  all_goals exact ⟨_, rfl⟩

/-- Trace members survive `afterSearch`. -/
theorem mem_afterSearch_of_mem (net : Net) (query provider : String)
    (results : List Json) (tr : List UpCall) (c : UpCall) (hc : c ∈ tr) :
    c ∈ (afterSearch net query provider results tr).2 := by
  obtain ⟨rest, hrest⟩ := afterSearch_trace_extends net query provider results tr
  rw [hrest]
  exact List.mem_append_left _ hc

/-- When `providerSearch` is entered with the default provider, the selected
provider (Tavily if its key is configured, DuckDuckGo otherwise) is actually
called. -/
theorem providerSearch_calls_provider (tavilyKey : Option String) (net : Net)
    (query : String) (maxResults : Int) :
    UpCall.tavily ∈ (providerSearch tavilyKey net query
        (if pyTruthyOptStr tavilyKey then ("tavily") else ("duckduckgo")) maxResults []).2
    ∨ UpCall.ddg ∈ (providerSearch tavilyKey net query
        (if pyTruthyOptStr tavilyKey then ("tavily") else ("duckduckgo")) maxResults []).2 := by
  cases htk : pyTruthyOptStr tavilyKey with
  | true =>
    left
    simp only [htk, if_true]
    unfold providerSearch
    simp only [htk, show (("tavily" : String) == "tavily") = true from by decide,
      Bool.and_self, if_true]
    repeat' split
    all_goals first
      | exact mem_afterSearch_of_mem _ _ _ _ _ _ (by simp)
      | simp
  | false =>
    right
    simp only [Bool.false_eq_true, if_false]
    unfold providerSearch
    simp only [htk, Bool.and_false, Bool.false_eq_true, if_false,
      show (("duckduckgo" : String) == "tavily") = false from by decide,
      show (("duckduckgo" : String) == "duckduckgo") = true from by decide, if_true]
    obtain ⟨rest, hrest⟩ := ddgData_trace net []
    split
    · rename_i out heq
      rw [heq] at hrest
      simp only [traceOf] at hrest
      simp [hrest]
    · rename_i data tr1 heq
      rw [heq] at hrest
      simp only [traceOf] at hrest
      split
      · exact mem_afterSearch_of_mem _ _ _ _ _ _ (by simp [hrest])
      · simp [hrest]

/-- C8: place-to-timezone resolution is a two-step match: first an exact
lookup of the lowercased (stripped) place in the static table; failing that,
the table is iterated in insertion order and the first entry whose key is
contained as a substring of the lowercased place wins; if neither step
matches, the resolver returns no answer and, for a time-like query, control
falls through to generic web search (the selected provider is called). -/
theorem map_place_two_step (place : String) (hne : place ≠ "") :
    (∀ tz, (pyStrip (pyLower place), tz) ∈ _CITY_TZ_MAP →
        _map_place_to_tz place = some (place, tz))
    ∧ ((∀ kv ∈ _CITY_TZ_MAP, kv.1 ≠ pyStrip (pyLower place)) →
        ∀ i : Fin _CITY_TZ_MAP.length,
          strContainsSub (_CITY_TZ_MAP.get i).1.data (pyStrip (pyLower place)).data = true →
          (∀ j : Fin _CITY_TZ_MAP.length, (j : Nat) < (i : Nat) →
            strContainsSub (_CITY_TZ_MAP.get j).1.data (pyStrip (pyLower place)).data = false) →
          _map_place_to_tz place = some (place, (_CITY_TZ_MAP.get i).2))
    ∧ ((∀ kv ∈ _CITY_TZ_MAP, kv.1 ≠ pyStrip (pyLower place)) →
        (∀ kv ∈ _CITY_TZ_MAP, strContainsSub kv.1.data (pyStrip (pyLower place)).data = false) →
        _map_place_to_tz place = none)
    ∧ (∀ (k : String) (tavilyKey : Option String) (baseDir stamp : String) (net : Net)
        (q : String), k ≠ "" → pyStrip q ≠ "" →
        _extract_place_from_query (pyStrip q) = some place →
        _map_place_to_tz place = none →
        UpCall.tavily ∈ (tool_exec (some k) tavilyKey baseDir stamp net "search.web"
            (some [("query", .str q)])).2
        ∨ UpCall.ddg ∈ (tool_exec (some k) tavilyKey baseDir stamp net "search.web"
            (some [("query", .str q)])).2) := by
  have hmap0 : (place == "") = false := by simpa using hne
  refine ⟨?_, ?_, ?_, ?_⟩
  · intro tz hmem
    have hnodup : (_CITY_TZ_MAP.map Prod.fst).Nodup := by decide
    have hf := find?_key_of_mem_nodup (α := String) hnodup hmem
    simp [_map_place_to_tz, hmap0, hf]
  · intro hnone i hp hb
    have hfind1 : _CITY_TZ_MAP.find? (fun kv => kv.1 == pyStrip (pyLower place)) = none := by
      rw [List.find?_eq_none]
      intro x hx
      simpa using hnone x hx
    have hfind2 := find?_eq_get_of_first
      (fun kv => strContainsSub kv.1.data (pyStrip (pyLower place)).data) _CITY_TZ_MAP i hp hb
    simp [_map_place_to_tz, hmap0, hfind1, hfind2]
  · intro hnone hnosub
    have hfind1 : _CITY_TZ_MAP.find? (fun kv => kv.1 == pyStrip (pyLower place)) = none := by
      rw [List.find?_eq_none]
      intro x hx
      simpa using hnone x hx
    have hfind2 : _CITY_TZ_MAP.find?
        (fun kv => strContainsSub kv.1.data (pyStrip (pyLower place)).data) = none := by
      rw [List.find?_eq_none]
      intro x hx
      simpa using hnosub x hx
    simp [_map_place_to_tz, hmap0, hfind1, hfind2]
  · intro k tavilyKey baseDir stamp net q hk hq hex hnomap
    have hq0 : (q == "") = false := by
      rcases eq_or_ne q "" with rfl | hne'
      · exact absurd (by decide) hq
      · simpa using hne'
    have hqs : (pyStrip q == "") = false := by simpa using hq
    have hsc : timeShortCircuit net (pyStrip q) = (none, []) := by
      rw [timeShortCircuit, hex]
      by_cases hpe : (place == "") = true
      · simp [hpe]
      · simp [hpe, hnomap]
    have hmain : tool_exec (some k) tavilyKey baseDir stamp net "search.web"
        (some [("query", .str q)])
        = providerSearch tavilyKey net (pyStrip q)
            (if pyTruthyOptStr tavilyKey then ("tavily") else ("duckduckgo")) 6 [] := by
      simp [tool_exec, key_configured hk, searchWeb, dictGetD, dictGet, List.find?, pyOr,
        pyTruthy, hq0, asStr, pyInt, hqs, searchWebTry, hsc,
        show pyStrip (pyLower "") = "" from by decide]
    rw [hmain]
    exact providerSearch_calls_provider tavilyKey net (pyStrip q) 6

/-- Witness for C8: `"Tokyo"` resolves by exact lookup; `"atlanta"` resolves
by the first substring match (the `"la"` entry, insertion order index 3);
`"Gondor"` resolves to nothing, and a `"time in Gondor"` query falls through
to the (free) provider. -/
theorem map_place_two_step_witness :
    _map_place_to_tz "Tokyo" = some ("Tokyo", "Asia/Tokyo")
    ∧ _map_place_to_tz "atlanta" = some ("atlanta", "America/Los_Angeles")
    ∧ _map_place_to_tz "Gondor" = none
    ∧ (UpCall.tavily ∈ (tool_exec (some "K") none "/base" "STAMP" busyNet "search.web"
          (some [("query", .str "time in Gondor")])).2
       ∨ UpCall.ddg ∈ (tool_exec (some "K") none "/base" "STAMP" busyNet "search.web"
          (some [("query", .str "time in Gondor")])).2) :=
  ⟨(map_place_two_step "Tokyo" (by decide)).1 "Asia/Tokyo" (by decide),
   (map_place_two_step "atlanta" (by decide)).2.1 (by decide) ⟨3, by decide⟩
     (by decide) (by decide),
   (map_place_two_step "Gondor" (by decide)).2.2.1 (by decide) (by decide),
   (map_place_two_step "Gondor" (by decide)).2.2.2 "K" none "/base" "STAMP" busyNet
     "time in Gondor" (by decide) (by decide) (by decide) (by decide)⟩

/-! ## Claim C9: `file.save` format inference and extension normalization -/

theorem data_append (a b : String) : (a ++ b).data = a.data ++ b.data := rfl

theorem pyLower_data (s : String) : (pyLower s).data = s.data.map Char.toLower := rfl

theorem pyStrip_data (l : List Char) :
    (pyStrip ⟨l⟩).data = ((l.dropWhile pyWs).reverse.dropWhile pyWs).reverse := rfl

/-- A character whose lower-case image is in the sanitizer's allowed class is
itself allowed (`toLower` only moves `A-Z` to `a-z`, and upper-case letters
are allowed). -/
theorem allowedFileChar_toLower (c : Char) (h : allowedFileChar (Char.toLower c) = true) :
    allowedFileChar c = true := by
  have h' : allowedFileChar
      (if c.toNat ≥ 65 ∧ c.toNat ≤ 90 then Char.ofNat (c.toNat + 32) else c) = true := h
  by_cases hc : c.toNat ≥ 65 ∧ c.toNat ≤ 90
  · simp only [allowedFileChar, Bool.or_eq_true, Bool.and_eq_true, decide_eq_true_eq]
    tauto
  · rw [if_neg hc] at h'
    exact h'

/-- Lower-casing fixes whitespace characters. -/
theorem pyWs_toLower (c : Char) (h : pyWs c = true) : Char.toLower c = c := by
  have hlt : c.toNat < 65 := by
    simp [pyWs] at h
    rcases h with ((((h|h)|h)|h)|h)|h <;> (subst h; decide)
  show (if c.toNat ≥ 65 ∧ c.toNat ≤ 90 then Char.ofNat (c.toNat + 32) else c) = c
  rw [if_neg (by omega)]

/-- The nine supported formats: nonempty, lower-case, made of allowed
non-whitespace characters. -/
theorem fmt_facts (fmtN : String) (hsupp : fmtN ∈ supportedFormats) :
    fmtN ≠ "" ∧ fmtN.data.map Char.toLower = fmtN.data
      ∧ (∀ c ∈ fmtN.data, allowedFileChar c = true)
      ∧ (∀ c ∈ fmtN.data, pyWs c = false) := by
  simp only [supportedFormats, List.mem_cons, List.not_mem_nil, or_false] at hsupp
  rcases hsupp with rfl|rfl|rfl|rfl|rfl|rfl|rfl|rfl|rfl <;>
    exact ⟨by decide, by decide, by decide, by decide⟩

/-- `lastIdxOf` points at an occurrence. -/
theorem lastIdxOf_drop (c : Char) : ∀ (cs : List Char) (i : Nat),
    lastIdxOf c cs = some i → ∃ t, cs.drop i = c :: t := by
  intro cs
  induction cs with
  | nil => intro i h; simp [lastIdxOf] at h
  | cons x xs ih =>
    intro i h
    rw [lastIdxOf] at h
    cases hx : lastIdxOf c xs with
    | some j =>
      rw [hx] at h
      injection h with h
      subst h
      obtain ⟨t, ht⟩ := ih j hx
      exact ⟨t, by simpa using ht⟩
    | none =>
      rw [hx] at h
      by_cases hxc : (x == c) = true
      · rw [if_pos hxc] at h
        injection h with h
        subst h
        exact ⟨xs, by simpa using congrArg (· :: xs) (eq_of_beq hxc)⟩
      · rw [if_neg (by simpa using hxc)] at h
        exact absurd h (by simp)

/-- The two halves of `splitext` reassemble to the input. -/
theorem splitext_concat (s : String) : (splitext s).1 ++ (splitext s).2 = s := by
  simp only [splitext]
  split
  · show (⟨s.data ++ []⟩ : String) = s
    rw [List.append_nil]
  · split
    · show (⟨s.data.take _ ++ s.data.drop _⟩ : String) = s
      rw [List.take_append_drop]
    · show (⟨s.data ++ []⟩ : String) = s
      rw [List.append_nil]

/-- A nonempty `splitext` extension starts with a dot. -/
theorem splitext_ext_dot (s : String) :
    (splitext s).2 = "" ∨ ∃ t, (splitext s).2.data = '.' :: t := by
  simp only [splitext]
  split
  · left; rfl
  · rename_i di h
    split
    · right
      obtain ⟨t, ht⟩ := lastIdxOf_drop '.' s.data di h
      exact ⟨t, ht⟩
    · left; rfl

/-- A list of allowed characters passes through the sanitizer unchanged. -/
theorem sanitizeRuns_allowed : ∀ (l : List Char), (∀ c ∈ l, allowedFileChar c = true) →
    ∀ b, sanitizeRuns b l = l := by
  intro l
  induction l with
  | nil => intro _ _; rfl
  | cons c cs ih =>
    intro h b
    rw [sanitizeRuns, if_pos (h c (by simp))]
    rw [ih (fun d hd => h d (by simp [hd])) false]

/-- The sanitizer maps a string with an allowed suffix to a string with the
same suffix. -/
theorem sanitizeRuns_suffix (suf : List Char) (hsuf : ∀ c ∈ suf, allowedFileChar c = true) :
    ∀ (pre : List Char) (b : Bool), ∃ pre2, sanitizeRuns b (pre ++ suf) = pre2 ++ suf := by
  intro pre
  induction pre with
  | nil => exact fun b => ⟨[], by simpa using sanitizeRuns_allowed suf hsuf b⟩
  | cons c cs ih =>
    intro b
    rw [List.cons_append, sanitizeRuns]
    by_cases hc : allowedFileChar c = true
    · rw [if_pos hc]
      obtain ⟨p2, hp⟩ := ih false
      exact ⟨c :: p2, by simp [hp]⟩
    · rw [if_neg hc]
      cases b with
      | true => simpa using ih true
      | false =>
        obtain ⟨p2, hp⟩ := ih true
        exact ⟨'_' :: p2, by simp [hp]⟩

/-- Dropping leading whitespace preserves a suffix that starts with a
non-whitespace character. -/
theorem dropWhile_ws_suffix (c0 : Char) (hc0 : pyWs c0 = false) (suf : List Char) :
    ∀ pre, ∃ pre2, (pre ++ c0 :: suf).dropWhile pyWs = pre2 ++ c0 :: suf := by
  intro pre
  induction pre with
  | nil => exact ⟨[], by simp [List.dropWhile_cons, hc0]⟩
  | cons x xs ih =>
    rw [List.cons_append, List.dropWhile_cons]
    by_cases hx : pyWs x = true
    · simpa [hx] using ih
    · exact ⟨x :: xs, by simp [hx]⟩

/-- `pyStrip` preserves a suffix of the form `'.' :: E` whose last character
is not whitespace. -/
theorem strip_dot_suffix (E : List Char) (hlast : ∀ c, E.getLast? = some c → pyWs c = false) :
    ∀ pre, ∃ pre2, (pyStrip ⟨pre ++ '.' :: E⟩).data = pre2 ++ '.' :: E := by
  intro pre
  obtain ⟨p1, hp1⟩ := dropWhile_ws_suffix '.' (by decide) E pre
  have hlast2 : ∀ c, (p1 ++ '.' :: E).getLast? = some c → pyWs c = false := by
    intro c hc
    rcases List.eq_nil_or_concat E with rfl | ⟨es, e, rfl⟩
    · rw [show p1 ++ ['.'] = p1 ++ ['.'] from rfl, List.getLast?_concat] at hc
      injection hc with hc
      rw [← hc]
      decide
    · rw [List.concat_eq_append,
        show p1 ++ '.' :: (es ++ [e]) = (p1 ++ '.' :: es) ++ [e] from by simp,
        List.getLast?_concat] at hc
      injection hc with hc
      subst hc
      refine hlast _ ?_
      rw [List.concat_eq_append, List.getLast?_concat]
  cases hr : (p1 ++ '.' :: E).reverse with
  | nil =>
    rw [List.reverse_eq_nil_iff] at hr
    exact absurd hr (by simp)
  | cons c M =>
    have hc : (p1 ++ '.' :: E).getLast? = some c := by
      rw [← List.head?_reverse, hr]
      rfl
    have hws := hlast2 c hc
    refine ⟨p1, ?_⟩
    rw [pyStrip_data, hp1, hr, List.dropWhile_cons, hws]
    simp only [Bool.false_eq_true, if_false]
    rw [← hr, List.reverse_reverse]

/-- A string with an empty character list is the empty string. -/
theorem string_eq_of_data (s : String) (h : s.data = []) : s = "" := by
  cases s with
  | mk d =>
    simp only at h
    subst h
    rfl

/-- A character whose lower-case image is non-whitespace is itself
non-whitespace. -/
theorem pyWs_of_toLower (c : Char) (h : pyWs (Char.toLower c) = false) : pyWs c = false := by
  by_cases hw : pyWs c = true
  · rw [pyWs_toLower c hw] at h
    exact absurd hw (by simp [h])
  · simpa using hw

/-- The extension-fixing step of `resolveFilename`: for a supported format,
the result splits as `pre ++ '.' :: E` where `E` is made of allowed
characters, ends in a non-whitespace character, and lower-cases to a string
ending in the format. -/
theorem extFix_aux (f1 fmt : String) (hsupp : fmt ∈ supportedFormats) :
    ∃ pre E,
      (if !(pyLower (lstripDots (splitext f1).2) == fmt) then
          (splitext f1).1 ++ "." ++ fmt
        else f1).data = pre ++ '.' :: E
      ∧ (∀ c ∈ E, allowedFileChar c = true)
      ∧ (∀ c, E.getLast? = some c → pyWs c = false)
      ∧ ('.' :: fmt.data) <:+ ('.' :: E.map Char.toLower) := by
  obtain ⟨hne, hlow, hall, hws⟩ := fmt_facts fmt hsupp
  cases hmatch : (pyLower (lstripDots (splitext f1).2) == fmt) with
  | false =>
    rw [if_pos (by decide)]
    refine ⟨(splitext f1).1.data, fmt.data, ?_, hall, ?_, ?_⟩
    · rw [data_append, data_append]
      simp
    · intro c hc
      exact hws c (List.mem_of_getLast?_eq_some hc)
    · rw [hlow]
  | true =>
    rw [if_neg (by decide)]
    have hfmt : pyLower (lstripDots (splitext f1).2) = fmt := eq_of_beq hmatch
    rcases splitext_ext_dot f1 with hext | ⟨t, ht⟩
    · rw [hext] at hfmt
      exact absurd (hfmt.symm.trans rfl) hne
    · have hsplit : t.takeWhile (fun c => c == '.') ++ t.dropWhile (fun c => c == '.') = t :=
        List.takeWhile_append_dropWhile _ t
      have hD : (t.dropWhile (fun c => c == '.')).map Char.toLower = fmt.data := by
        have hdat := congrArg String.data hfmt
        rw [pyLower_data] at hdat
        have hld : (lstripDots (splitext f1).2).data = t.dropWhile (fun c => c == '.') := by
          show ((splitext f1).2.data).dropWhile (fun c => c == '.')
              = t.dropWhile (fun c => c == '.')
          rw [ht]
          simp [List.dropWhile_cons]
        rw [hld] at hdat
        exact hdat
      have hf1 : f1.data = (splitext f1).1.data ++ '.' :: t := by
        have hcat := congrArg String.data (splitext_concat f1)
        rw [data_append, ht] at hcat
        exact hcat.symm
      refine ⟨(splitext f1).1.data, t, hf1, ?_, ?_, ?_⟩
      · intro c hc
        rw [← hsplit, List.mem_append] at hc
        rcases hc with hc | hc
        · have h1 := List.mem_takeWhile_imp hc
          rw [eq_of_beq h1]
          decide
        · refine allowedFileChar_toLower c (hall _ ?_)
          rw [← hD]
          exact List.mem_map_of_mem _ hc
      · have hDne : t.dropWhile (fun c => c == '.') ≠ [] := by
          intro h
          rw [h] at hD
          exact hne (string_eq_of_data fmt hD.symm)
        obtain ⟨D0, d, hDc⟩ :=
          (List.eq_nil_or_concat (t.dropWhile (fun c => c == '.'))).resolve_left hDne
        rw [List.concat_eq_append] at hDc
        intro c hc
        have hct : t.getLast? = some d := by
          rw [← hsplit, hDc, ← List.append_assoc, List.getLast?_concat]
        rw [hct] at hc
        injection hc with hc
        subst hc
        have hdD : d ∈ t.dropWhile (fun c => c == '.') := by
          rw [hDc]
          simp
        refine pyWs_of_toLower _ (hws _ ?_)
        rw [← hD]
        exact List.mem_map_of_mem _ hdD
      · rcases List.eq_nil_or_concat (t.takeWhile (fun c => c == '.')) with hnil | ⟨ds, e, hds⟩
        · rw [← hsplit, hnil, List.nil_append, hD]
        · rw [List.concat_eq_append] at hds
          have he : e = '.' := by
            have hin : e ∈ t.takeWhile (fun c => c == '.') := by
              rw [hds]
              simp
            have h1 := List.mem_takeWhile_imp hin
            exact eq_of_beq h1
          refine ⟨'.' :: ds.map Char.toLower, ?_⟩
          rw [← hsplit, hds, he]
          simp [hD]

/-- For a supported format, the resolved filename splits as `pre ++ '.' :: E`
with `E` allowed, ending in a non-whitespace character, and lower-casing to
an extension ending in the format. -/
theorem resolveFilename_ext (stamp filename0 fmt : String)
    (hsupp : fmt ∈ supportedFormats) :
    ∃ pre E, (resolveFilename stamp filename0 fmt).data = pre ++ '.' :: E
      ∧ (∀ c ∈ E, allowedFileChar c = true)
      ∧ (∀ c, E.getLast? = some c → pyWs c = false)
      ∧ ('.' :: fmt.data) <:+ ('.' :: E.map Char.toLower) :=
  extFix_aux _ fmt hsupp

/-- Whenever `fileSaveCore` answers 200, the reported filename ends (up to
letter case) in a dot followed by the reported format. -/
theorem fileSaveCore_ext (baseDir stamp filename0 fmt0 safe fmtN : String)
    (hst : (fileSaveCore baseDir stamp filename0 fmt0).status = 200)
    (hfn : getField (fileSaveCore baseDir stamp filename0 fmt0).body "filename"
      = some (.str safe))
    (hfm : getField (fileSaveCore baseDir stamp filename0 fmt0).body "format"
      = some (.str fmtN)) :
    ('.' :: fmtN.data) <:+ (pyLower safe).data := by
  simp only [fileSaveCore] at hst hfn hfm
  by_cases h1 : (normalizeFmt filename0 fmt0 == "") = true
  · rw [if_pos h1] at hst
    exact absurd hst (by decide)
  · rw [if_neg h1] at hst hfn hfm
    by_cases h2 : supportedFormats.contains (normalizeFmt filename0 fmt0) = true
    · rw [if_pos h2] at hst hfn hfm
      simp only [getField, dictGet] at hfn hfm
      simp at hfn hfm
      obtain ⟨pre, E, hres, hallE, hlastE, hsuf⟩ :=
        resolveFilename_ext stamp filename0 _ (List.mem_of_elem_eq_true h2)
      obtain ⟨p2, hp2⟩ := sanitizeRuns_suffix ('.' :: E)
        (by
          intro c hc
          rcases List.mem_cons.mp hc with rfl | hc
          · decide
          · exact hallE c hc) pre false
      obtain ⟨p3, hp3⟩ := strip_dot_suffix E hlastE p2
      have hsafe_data : safe.data = p3 ++ '.' :: E := by
        rw [← hfn]
        rw [show (⟨sanitizeRuns false
              (resolveFilename stamp filename0 (normalizeFmt filename0 fmt0)).data⟩ : String)
            = (⟨p2 ++ '.' :: E⟩ : String) from by rw [hres, hp2]]
        exact hp3
      have hmap : (pyLower safe).data = p3.map Char.toLower ++ '.' :: E.map Char.toLower := by
        rw [pyLower_data, hsafe_data, List.map_append, List.map_cons]
        rfl
      rw [← hfm, hmap]
      exact hsuf.trans ⟨p3.map Char.toLower, rfl⟩
    · rw [if_neg h2] at hst
      simp at hst

/-- An environment where every outbound call fails (`file.save` makes
none). -/
def offlineNet : Net :=
  { timeApi := fun _ _ => .error "offline", tavily := .error "offline",
    ddg := fun _ => .error "offline", imageApi := .error "offline" }

/-- C9: `file.save` with filename `report.pdf` and no explicit format infers
format `pdf` from the extension and keeps the filename; with filename
`report.doc` and explicit format `doc`, the alias table normalizes the
format to `docx` and the filename's extension is corrected to `.docx`; and
in general, whenever `file.save` succeeds, the reported filename ends (up to
letter case) in a dot followed by the reported normalized format. -/
theorem filesave_format_inference (k : String) (tavilyKey : Option String)
    (baseDir stamp : String) (net : Net) (hk : k ≠ "") :
    tool_exec (some k) tavilyKey baseDir stamp net "file.save"
        (some [("filename", Json.str "report.pdf")]) =
      ({ status := 200, body := .obj
          [("success", .bool true), ("type", .str "file"),
           ("path", .str (baseDir ++ "/" ++ "report.pdf")),
           ("filename", .str "report.pdf"), ("format", .str "pdf")] }, [])
    ∧ tool_exec (some k) tavilyKey baseDir stamp net "file.save"
        (some [("filename", Json.str "report.doc"), ("format", Json.str "doc")]) =
      ({ status := 200, body := .obj
          [("success", .bool true), ("type", .str "file"),
           ("path", .str (baseDir ++ "/" ++ "report.docx")),
           ("filename", .str "report.docx"), ("format", .str "docx")] }, [])
    ∧ (∀ (args : List (String × Json)) (safe fmtN : String),
        (fileSave baseDir stamp args).status = 200 →
        getField (fileSave baseDir stamp args).body "filename" = some (.str safe) →
        getField (fileSave baseDir stamp args).body "format" = some (.str fmtN) →
        ('.' :: fmtN.data) <:+ (pyLower safe).data) := by
  refine ⟨?_, ?_, ?_⟩
  · simp only [tool_exec, key_configured hk]
    rfl
  · simp only [tool_exec, key_configured hk]
    rfl
  · intro args safe fmtN hst hfn hfm
    cases h1 : (if args.isEmpty then some "" else
        asStr (pyOr (dictGetD args "filename" Json.null)
          (pyOr (dictGetD args "name" Json.null) (Json.str "")))) with
    | none => simp [fileSave, h1] at hst
    | some fn0 =>
      cases h2 : (if args.isEmpty then some "" else
          asStr (pyOr (dictGetD args "format" Json.null)
            (pyOr (dictGetD args "type" Json.null) (Json.str "")))) with
      | none => simp [fileSave, h1, h2] at hst
      | some f0 =>
        simp only [fileSave, h1, h2] at hst hfn hfm
        exact fileSaveCore_ext baseDir stamp (pyStrip fn0) (pyLower (pyStrip f0))
          safe fmtN hst hfn hfm

/-- Witness for C9: a concrete key and concrete arguments exercise the
`pdf` inference and, at a second successful call, the general
extension/format agreement. -/
theorem filesave_format_inference_witness :
    (tool_exec (some "sk-test") none "/base" "20240101-000000" offlineNet "file.save"
        (some [("filename", Json.str "report.pdf")]) =
      ({ status := 200, body := .obj
          [("success", .bool true), ("type", .str "file"),
           ("path", .str ("/base" ++ "/" ++ "report.pdf")),
           ("filename", .str "report.pdf"), ("format", .str "pdf")] }, []))
    ∧ ('.' :: "txt".data) <:+ (pyLower "Notes.TXT").data :=
  ⟨(filesave_format_inference "sk-test" none "/base" "20240101-000000" offlineNet
      (by decide)).1,
   (filesave_format_inference "sk-test" none "/base" "20240101-000000" offlineNet
      (by decide)).2.2 [("filename", Json.str "Notes.TXT")] "Notes.TXT" "txt"
      rfl rfl rfl⟩

end AlitaOS
